import Mathlib

/-!
Verification of the FileBuddy tool (`src/Source/fb.py`) against its
natural-language specification.

Python strings are embedded as `List Char` (named `Str` below), Python
integers as `Nat`/`Int`, and fallible Python code as `Except PyExc`.
Filesystem state and the behaviour of library calls (`os.walk`,
`shutil.copy2`, `os.path.getsize`, ...) are embedded as explicit
parameters: a directory tree datatype for `os.walk`, and outcome
functions for the fallible filesystem operations.  Pure helper
functions (`fix_path`, `split_match`, `regex_sub`, `print_output`'s
terminal branch) are translated line by line from the source.
-/

/-- A Python string, embedded as its list of characters. -/
abbrev Str := List Char

/-- The Python exception classes that the program's `try`/`except`
blocks distinguish.  `shutilError` stands for `shutil.Error`;
`osError` stands for any other `OSError` (e.g. `PermissionError`,
`FileNotFoundError`) that is *not* a `shutil.Error`; `typeError`,
`valueError` and `indexError` are the builtin exception classes. -/
inductive PyExc where
  | typeError
  | valueError
  | indexError
  | osError
  | shutilError
deriving DecidableEq, Repr

/-! ### Path normalizer (`fix_path`, fb.py lines 54-56) -/

/-- First half of `fix_path`: `path.replace('\\', '/')`.  Replacing a
single character hits every occurrence independently, so it is a map. -/
def replaceBackslash (s : Str) : Str :=
  s.map (fun c => if c = '\\' then '/' else c)

/-- Second half of `fix_path`: `path.replace('//', '/')`.  Python's
`str.replace` substitutes non-overlapping occurrences in a single
left-to-right pass, resuming the scan *after* each replacement. -/
def replaceDoubleSlash : Str → Str
  | '/' :: '/' :: rest => '/' :: replaceDoubleSlash rest
  | c :: rest => c :: replaceDoubleSlash rest
  | [] => []

/-- fb.py lines 54-56: `return path.replace('\\', '/').replace('//', '/')`. -/
def fix_path (s : Str) : Str :=
  replaceDoubleSlash (replaceBackslash s)

/-- Whether a string contains two consecutive forward slashes. -/
def hasDoubleSlash : Str → Bool
  | '/' :: '/' :: _ => true
  | _ :: rest => hasDoubleSlash rest
  | [] => false

/-- Whether a string contains three consecutive forward slashes. -/
def hasTripleSlash : Str → Bool
  | '/' :: '/' :: '/' :: _ => true
  | _ :: rest => hasTripleSlash rest
  | [] => false

/-! ### The match object and `split_match` (fb.py lines 58-64) -/

/-- A Python `re.Match` object, as the program uses it: the subject
string, the match span `(start, stop)`, the capture groups, and the
number of capturing groups in the pattern.  `groups k = none` models a
group that did not participate in the match (Python's `m.group(k) is
None`); `k > ngroups` models an out-of-range group index (for which
Python raises `IndexError`).  Group `0` is the whole match. -/
structure PyMatch where
  string : Str
  start : Nat
  stop : Nat
  groups : Nat → Option Str
  ngroups : Nat

/-- fb.py lines 58-64: splits a match object into before, match and
after parts via Python slices `s[:start]`, `s[start:end]`, `s[end:]`. -/
def split_match (m : PyMatch) : Str × Str × Str :=
  (m.string.take m.start, (m.string.take m.stop).drop m.start, m.string.drop m.stop)

/-- Python's `re.search`, which the program applies to names and lines:
scan positions `0, 1, ...` left to right and return the first position
where the pattern matches.  The regular-expression engine itself is
abstracted by `matchAt`, which for each start position reports the end
of the match there (if any); `searchAux` is the documented scan of
`re.search` over those positions. -/
def searchAux (matchAt : Nat → Option Nat) : Nat → Nat → Option (Nat × Nat)
  | _, 0 => none
  | i, fuel + 1 =>
    match matchAt i with
    | some e => some (i, e)
    | none => searchAux matchAt (i + 1) fuel

/-- `re.search(pattern, s)`: try every start position of `s` (there are
`s.length + 1` of them, counting the empty suffix) and return the
leftmost match span, or `none` — Python returns `None`, it never
throws. -/
def pySearch (s : Str) (matchAt : Nat → Option Nat) : Option (Nat × Nat) :=
  searchAux matchAt 0 (s.length + 1)

/-- Build the match object for a span found by `pySearch`.  The search
calls in fb.py never consult capture groups, so the groups of the
resulting object are irrelevant; only the string and span are used by
`split_match`. -/
def mkMatch (s : Str) (i e : Nat) : PyMatch :=
  ⟨s, i, e, fun _ => none, 0⟩

/-! ### Template substitution (`regex_sub`, fb.py lines 66-74) -/

/-- Numeric value of a digit string, as Python's `int()` computes it. -/
def digitsToNat (ds : Str) : Nat :=
  ds.foldl (fun a c => a * 10 + (c.toNat - 48)) 0

/-- The per-token scan of `re.sub(r'\$\((\d+)\)', ...)`: does the
string start with a token `$(` digits `)` ?  If so, return the token's
group index and the remainder after the token.  (The regex requires at
least one digit followed immediately by `)`.) -/
def parseGroupRef (cs : Str) : Option (Nat × Str) :=
  match cs with
  | a :: b :: rest =>
    if a = '$' then
      if b = '(' then
        if rest.takeWhile Char.isDigit = [] then none
        else
          match rest.dropWhile Char.isDigit with
          | ')' :: tail => some (digitsToNat (rest.takeWhile Char.isDigit), tail)
          | _ => none
      else none
    else none
  | _ => none

/-- fb.py lines 68-73, `group_replacer`: `match_obj.group(idx)` with
`except IndexError: return ''`.  Python raises `IndexError` exactly
when `idx` exceeds the pattern's group count — that is caught and
yields the empty string.  For an in-range group that did not
participate, `m.group(idx)` returns `None`; `re.sub` then raises
`TypeError` because the replacement is not a string, and nothing in
fb.py catches it. -/
def group_replacer (m : PyMatch) (idx : Nat) : Except PyExc Str :=
  if idx > m.ngroups then Except.ok []
  else
    match m.groups idx with
    | some g => Except.ok g
    | none => Except.error PyExc.typeError

/-- fb.py lines 66-74: `re.sub(r'\$\((\d+)\)', group_replacer, text)`.
`re.sub` scans `text` left to right; at each position it either
consumes a `$(digits)` token and emits the replacement, or copies one
character.  A `TypeError` from the replacer propagates. -/
def regex_sub (m : PyMatch) (cs : Str) : Except PyExc Str :=
  match h : parseGroupRef cs with
  | some kt =>
    match group_replacer m kt.1 with
    | Except.ok g =>
      match regex_sub m kt.2 with
      | Except.ok r => Except.ok (g ++ r)
      | Except.error e => Except.error e
    | Except.error e => Except.error e
  | none =>
    match cs with
    | [] => Except.ok []
    | c :: rest =>
      match regex_sub m rest with
      | Except.ok r => Except.ok (c :: r)
      | Except.error e => Except.error e
termination_by cs.length
decreasing_by
  · rcases cs with _ | ⟨a, _ | ⟨b, rest⟩⟩
    · simp [parseGroupRef] at h
    · simp [parseGroupRef] at h
    · simp only [parseGroupRef] at h
      split_ifs at h
      split at h
      · rename_i heq
        have h1 : (rest.dropWhile Char.isDigit).length ≤ rest.length :=
          List.Sublist.length_le (List.dropWhile_sublist _)
        rw [heq] at h1
        simp only [List.length_cons] at h1
        have h2 : kt.2.length + 1 ≤ rest.length := by
          cases h
          simpa using h1
        simp only [List.length_cons]
        omega
      · simp at h
  · simp

/-- Whether a string contains a well-formed `$(digits)` token anywhere. -/
def hasToken : Str → Bool
  | [] => false
  | c :: rest => (parseGroupRef (c :: rest)).isSome || hasToken rest

/-! ### Output formatter (`print_output`, fb.py lines 249-268, terminal branch) -/

/-- The opening-brace and closing-brace characters. -/
def lbr : Char := Char.ofNat 123

/-- See `lbr`. -/
def rbr : Char := Char.ofNat 125

/-- The ANSI escape character `'\033'`. -/
def esc : Char := Char.ofNat 27

/-- `RESET_COLOR = '\033[0m'` (fb.py line 23). -/
def resetColor : Str := [esc, '[', '0', 'm']

/-- `MATCH_COLOR = '\033[33m'` (fb.py line 18). -/
def matchColor : Str := [esc, '[', '3', '3', 'm']

/-- Python's `formatted_string.format(arg)` for a single positional
argument, as the program's templates use it: each `"{}"` is an
auto-numbered field, so the first is replaced by `arg` and a second one
raises `IndexError`; `"{{"`/`"}}"` are brace escapes; a lone brace
raises `ValueError`.  (Other replacement-field forms never occur in
fb.py's templates and are mapped to `ValueError` as well.) -/
def pyFormatAux (arg : Str) (used : Bool) : Str → Except PyExc Str
  | [] => Except.ok []
  | c :: rest =>
    if c = lbr then
      match rest with
      | c2 :: rest2 =>
        if c2 = rbr then
          if used then Except.error PyExc.indexError
          else
            match pyFormatAux arg true rest2 with
            | Except.ok r => Except.ok (arg ++ r)
            | Except.error e => Except.error e
        else if c2 = lbr then
          match pyFormatAux arg used rest2 with
          | Except.ok r => Except.ok (lbr :: r)
          | Except.error e => Except.error e
        else Except.error PyExc.valueError
      | [] => Except.error PyExc.valueError
    else if c = rbr then
      match rest with
      | c2 :: rest2 =>
        if c2 = rbr then
          match pyFormatAux arg used rest2 with
          | Except.ok r => Except.ok (rbr :: r)
          | Except.error e => Except.error e
        else Except.error PyExc.valueError
      | [] => Except.error PyExc.valueError
    else
      match pyFormatAux arg used rest with
      | Except.ok r => Except.ok (c :: r)
      | Except.error e => Except.error e
termination_by cs => cs.length
decreasing_by all_goals (simp only [List.length_cons]; omega)

/-- `formatted_string.format(arg)`. -/
def pyFormat (fs arg : Str) : Except PyExc Str :=
  pyFormatAux arg false fs

/-- Python's `formatted_string.index('{}')`: the index of the first
occurrence of the two-character substring `"{}"`, raising `ValueError`
when there is none. -/
def pyIndexBrace : Str → Except PyExc Nat
  | [] => Except.error PyExc.valueError
  | c :: rest =>
    if c = lbr ∧ rest.head? = some rbr then Except.ok 0
    else
      match pyIndexBrace rest with
      | Except.ok n => Except.ok (n + 1)
      | Except.error e => Except.error e

/-- Python's slice `s[:k]` for a possibly negative `k`: a negative
bound counts from the end of the string. -/
def pySliceTo (l : Str) (k : Int) : Str :=
  if k < 0 then l.take ((l.length : Int) + k).toNat else l.take k.toNat

/-- fb.py lines 249-268, the terminal branch of `print_output`
(`output_file is None`): format the message with the colored match,
truncate it when it is longer than the terminal width, and return the
line handed to `print_safe` (wrapped in `wrapColor` ... `RESET_COLOR`).
Python's `len` and slicing count raw characters, escape bytes included;
`W` is `get_terminal_width()`. -/
def print_output (fs mtch color wrapColor : Str) (W : Nat) : Except PyExc Str :=
  match pyFormat fs (color ++ mtch ++ wrapColor) with
  | Except.error e => Except.error e
  | Except.ok message =>
    if message.length > W then
      match pyIndexBrace fs with
      | Except.error e => Except.error e
      | Except.ok idx =>
        if (idx : Int) < (W : Int) - 3 then
          Except.ok (wrapColor ++
            (pySliceTo message ((W : Int) - 3 - color.length - wrapColor.length) ++
              ['.', '.', '.']) ++ resetColor)
        else
          Except.ok (wrapColor ++
            (pySliceTo message ((W : Int) - 3) ++ ['.', '.', '.']) ++ resetColor)
    else Except.ok (wrapColor ++ message ++ resetColor)

/-- The number of visible characters of a terminal line: ANSI escape
sequences `ESC [ ... m` occupy no columns.  On seeing `ESC` the
scanner discards everything up to and including the next `m`. -/
def visibleLen : Str → Nat
  | [] => 0
  | c :: rest =>
    if c = esc then visibleLen ((rest.dropWhile (fun d => d ≠ 'm')).drop 1)
    else 1 + visibleLen rest
termination_by cs => cs.length
decreasing_by
  · have h1 : (rest.dropWhile (fun d => d ≠ 'm')).length ≤ rest.length :=
      List.Sublist.length_le (List.dropWhile_sublist _)
    have h2 : ((rest.dropWhile (fun d => d ≠ 'm')).drop 1).length ≤
        (rest.dropWhile (fun d => d ≠ 'm')).length := by
      simp
    simp only [List.length_cons]
    omega
  · simp

/-- A well-formed ANSI color sequence: `ESC`, a body free of `m`, then
the terminating `m`.  All the color constants of fb.py have this form. -/
def IsColorSeq (s : Str) : Prop :=
  ∃ body : Str, s = esc :: body ++ ['m'] ∧ 'm' ∉ body

/-- No escape character occurs in the string. -/
def escFree (s : Str) : Bool :=
  s.all (fun c => c ≠ esc)

/-- No brace character occurs in the string. -/
def braceFree (s : Str) : Bool :=
  s.all (fun c => c ≠ lbr ∧ c ≠ rbr)

/-! ### Traversal engine (`os.walk` and the per-command loops) -/

mutual
/-- A directory tree: the subdirectories (in listing order, with their
names) and the files of one directory.  This is the filesystem state
that `os.walk` enumerates. -/
inductive FTree : Type where
  | mk : DirList → List Str → FTree
deriving DecidableEq, Repr

/-- The subdirectories of a directory: name and subtree, in order. -/
inductive DirList : Type where
  | nil : DirList
  | cons : Str → FTree → DirList → DirList
deriving DecidableEq, Repr
end

/-- The names of a `DirList`, i.e. the `dirs` component that `os.walk`
yields for a directory. -/
def dirNames : DirList → List Str
  | DirList.nil => []
  | DirList.cons d _ rest => d :: dirNames rest

/-- One `(root, dirs, files)` triple yielded by `os.walk`. -/
abbrev WalkEntry := Str × List Str × List Str

mutual
/-- `os.walk(root)` with the default `topdown=True`: the root's own
entry first, then the subtrees depth-first in listing order. -/
def walkTD : Str → FTree → List WalkEntry
  | root, FTree.mk ds files => (root, dirNames ds, files) :: walkTDs root ds
/-- Walk of a list of subdirectories, top-down. -/
def walkTDs : Str → DirList → List WalkEntry
  | _, DirList.nil => []
  | root, DirList.cons d t rest => walkTD (root ++ '/' :: d) t ++ walkTDs root rest
end

mutual
/-- `os.walk(root, topdown=False)`: every subtree before its parent,
so each directory is yielded after all of its descendants. -/
def walkBU : Str → FTree → List WalkEntry
  | root, FTree.mk ds files => walkBUs root ds ++ [(root, dirNames ds, files)]
/-- Walk of a list of subdirectories, bottom-up. -/
def walkBUs : Str → DirList → List WalkEntry
  | _, DirList.nil => []
  | root, DirList.cons d t rest => walkBU (root ++ '/' :: d) t ++ walkBUs root rest
end

/-- The shape common to every per-command loop over `os.walk` except
the size command's first pass: `for root, dirs, files in os.walk(...)`
ending in `if not recursive: break`, i.e. only the first yielded entry
is processed when `recursive` is false. -/
def walkLoop (recursive : Bool) (entries : List WalkEntry) : List WalkEntry :=
  if recursive then entries else entries.take 1

/-- Substring test: does `pat` occur inside `s`?  This is Python's
`pat in s`. -/
def occursIn (pat : Str) : Str → Bool
  | [] => pat.isEmpty
  | c :: rest => pat.isPrefixOf (c :: rest) || occursIn pat rest

/-- The hidden-root filter that opens every handler's walk loop
(e.g. fb.py lines 322-327): after `root = fix_path(root)`, the entry
is skipped when `not hidden and '/.' in root`. -/
def rootSkip (hidden : Bool) (root : Str) : Bool :=
  !hidden && occursIn ['/', '.'] (fix_path root)

/-- The walk entries a handler actually processes: those surviving the
hidden-root filter (the handlers `continue` on the rest). -/
def processedEntries (hidden : Bool) (entries : List WalkEntry) : List WalkEntry :=
  entries.filter (fun e => !rootSkip hidden e.1)

/-- The per-name hidden filter inside every `for dir in dirs` /
`for file in files` loop: `if not hidden and name.startswith('.'):
continue`. -/
def hiddenSkip (hidden : Bool) (name : Str) : Bool :=
  !hidden && name.head? = some '.'

/-! ### Size command, pass 1 (fb.py lines 471-508)

The first pass iterates `os.walk(directory, topdown=False)` — with no
`if not recursive: break` — accumulating every directory's recursive
byte total in `results_sizes`.  `os.path.getsize` is abstracted by a
`fsize` outcome function; the pass also records every path it calls
`getsize` on (the files it reads), successful or not. -/

/-- Pointwise-updated finite map used for `results_sizes`
(`results_sizes[k] = v`). -/
def mapSet (f : Str → Nat) (k : Str) (v : Nat) : Str → Nat :=
  fun x => if x = k then v else f x

/-- fb.py lines 490-504, the `for file in files` loop of size pass 1:
returns the bytes added to `rootSize`, the updated `results_sizes`
and the accumulated list of paths passed to `os.path.getsize`.
A failing `getsize` is caught (`except Exception`), adds nothing and
records no size, and the loop continues. -/
def sizeFilesLoop (hidden : Bool) (fsize : Str → Except PyExc Nat) (root : Str) :
    List Str → (Str → Nat) → List Str → Nat × (Str → Nat) × List Str
  | [], sizes, queried => (0, sizes, queried)
  | f :: rest, sizes, queried =>
    if hiddenSkip hidden f then sizeFilesLoop hidden fsize root rest sizes queried
    else
      match fsize (root ++ '/' :: f) with
      | Except.ok s =>
        let r := sizeFilesLoop hidden fsize root rest
          (mapSet sizes (root ++ '/' :: f) s) (queried ++ [root ++ '/' :: f])
        (s + r.1, r.2)
      | Except.error _ =>
        sizeFilesLoop hidden fsize root rest sizes (queried ++ [root ++ '/' :: f])

/-- fb.py lines 481-488, the `for dir in dirs` loop of size pass 1:
`rootSize += results_sizes.get(root + '/' + dir, 0)` for each
non-hidden subdirectory. -/
def sizeDirsSum (hidden : Bool) (sizes : Str → Nat) (root : Str) (dirs : List Str) : Nat :=
  (dirs.filter (fun d => !hiddenSkip hidden d)).foldl
    (fun acc d => acc + sizes (root ++ '/' :: d)) 0

/-- One iteration of size pass 1 (fb.py lines 471-508) over a walk
entry: normalize the root, apply the hidden-root filter, total the
subdirectory and file sizes, and record `results_sizes[root]`. -/
def sizePass1Step (hidden : Bool) (fsize : Str → Except PyExc Nat)
    (acc : (Str → Nat) × List Str) (e : WalkEntry) : (Str → Nat) × List Str :=
  let root := fix_path e.1
  if !hidden && occursIn ['/', '.'] root then acc
  else
    let dirPart := sizeDirsSum hidden acc.1 root e.2.1
    let r := sizeFilesLoop hidden fsize root e.2.2 acc.1 acc.2
    (mapSet r.2.1 root (dirPart + r.1), r.2.2)

/-- Size pass 1 in full: a fold over *all* entries of the bottom-up
walk — the loop contains no `recursive` check. -/
def sizePass1 (hidden : Bool) (fsize : Str → Except PyExc Nat)
    (entries : List WalkEntry) : (Str → Nat) × List Str :=
  entries.foldl (sizePass1Step hidden fsize) (fun _ => 0, [])

/-! ### Copy and move (`move_item`, fb.py lines 694-728 and 763-790) -/

/-- The abstracted filesystem environment and run flags shared by the
command handlers.  `patReq` is `re.search(pattern, ·)` for the
required `-p` pattern of rename/delete/copy/move; `namePat` is the
optional `-p` matcher of search/list/size; `contentPat` matches the
search command's content pattern against one line.  `copy2Exc`,
`copytreeExc` and `moveExc` give the exception (if any) raised by
`shutil.copy2`, `shutil.copytree` and `shutil.move` on given source
and destination; `renameExc`/`deleteExc` likewise for `os.rename` and
the delete handler's removal block (whose internal sub-walk they
absorb); `fsize` is `os.path.getsize`; `isdir` is `os.path.isdir`;
`readFile` yields a file's lines (`f.read().splitlines()`) or the
exception raised while reading. -/
structure Env where
  hidden : Bool
  verbose : Bool
  recursive : Bool
  dir : Str
  tree : FTree
  namePat : Option (Str → Option PyMatch)
  patReq : Str → Option PyMatch
  contentPat : Str → Option PyMatch
  readFile : Str → Except PyExc (List Str)
  newName : Str
  outputPath : Str
  isdir : Str → Bool
  renameExc : Str → Str → Option PyExc
  deleteExc : Str → Option PyExc
  copy2Exc : Str → Str → Option PyExc
  copytreeExc : Str → Str → Option PyExc
  moveExc : Str → Str → Option PyExc
  fsize : Str → Except PyExc Nat

/-- Does the string end with `'/'`?  (`destination.endswith('/')`.) -/
def endsSlash (s : Str) : Bool :=
  s.getLast? = some '/'

/-- `os.path.basename` for the slash-separated paths the program
builds: everything after the last `'/'`. -/
def basename (s : Str) : Str :=
  (s.reverse.takeWhile (fun c => c ≠ '/')).reverse

/-- The destination adjustment at the top of both `move_item`
definitions (fb.py lines 704-711 and 773-780): a file destination
ending in a separator gets the name appended; a directory destination
that already exists gets the name appended with a separator inserted
if missing. -/
def adjustDest (isdir : Str → Bool) (is_dir : Bool) (destination name : Str) : Str :=
  if !is_dir && endsSlash destination then destination ++ name
  else if is_dir && isdir destination then
    if endsSlash destination then destination ++ name
    else destination ++ '/' :: name
  else destination

/-- The realized destination of `shutil.copy2(src, dst)`: when `dst`
is an existing directory the file is copied *into* it under the
source's base name, otherwise to `dst` itself. -/
def copy2Target (isdir : Str → Bool) (src dst : Str) : Str :=
  if isdir dst then dst ++ '/' :: basename src else dst

/-- `print_error` (fb.py lines 270-282): dropped entirely unless
verbose; otherwise prefixed with `ERROR: `. -/
def errLines (verbose : Bool) (msg : Str) : List Str :=
  if verbose then [('E' :: 'R' :: 'R' :: 'O' :: 'R' :: ':' :: ' ' :: []) ++ msg] else []

/-- The error text of the copy handler's file branch
(`Could not copy file {from_path} to {to_path}: ...`; the rendering of
the exception object itself is elided). -/
def copyFileErrMsg (fromPath toPath : Str) : Str :=
  ('C' :: 'o' :: 'u' :: 'l' :: 'd' :: ' ' :: 'n' :: 'o' :: 't' :: ' ' ::
   'c' :: 'o' :: 'p' :: 'y' :: ' ' :: []) ++ fromPath ++
  (' ' :: 't' :: 'o' :: ' ' :: []) ++ toPath

/-- The error text of the move handler (`Could not move directory
{from_path} to {to_path}: ...`). -/
def moveErrMsg (fromPath toPath : Str) : Str :=
  ('C' :: 'o' :: 'u' :: 'l' :: 'd' :: ' ' :: 'n' :: 'o' :: 't' :: ' ' ::
   'm' :: 'o' :: 'v' :: 'e' :: ' ' :: []) ++ fromPath ++
  (' ' :: 't' :: 'o' :: ' ' :: []) ++ toPath

/-- Result of one `move_item` call: the boolean the closure returns,
the error lines actually emitted (after the verbose filter), and — for
a successful file copy — the realized filesystem destination. -/
structure MoveItemRes where
  ret : Bool
  errs : List Str
  copied : Option Str
deriving DecidableEq, Repr

/-- fb.py lines 694-728, the copy handler's `move_item`: hidden-name
filter, pattern match, destination adjustment, `regex_sub` into the
destination template (a `TypeError` from it propagates — it is raised
*before* the `try`), then `shutil.copytree`/`shutil.copy2` guarded by
`except shutil.Error` only: any other exception propagates out of the
handler and aborts the run. -/
def move_item_copy (env : Env) (root name destination : Str) (is_dir : Bool) :
    Except PyExc MoveItemRes :=
  if hiddenSkip env.hidden name then Except.ok ⟨false, [], none⟩
  else
    match env.patReq name with
    | none => Except.ok ⟨false, [], none⟩
    | some mo =>
      let fromPath := root ++ '/' :: name
      let dest := adjustDest env.isdir is_dir destination name
      match regex_sub mo dest with
      | Except.error e => Except.error e
      | Except.ok toPath =>
        if is_dir then
          match env.copytreeExc fromPath toPath with
          | some PyExc.shutilError =>
            Except.ok ⟨false, errLines env.verbose (copyFileErrMsg fromPath toPath), none⟩
          | some e => Except.error e
          | none => Except.ok ⟨true, [], none⟩
        else
          match env.copy2Exc fromPath toPath with
          | some PyExc.shutilError =>
            Except.ok ⟨false, errLines env.verbose (copyFileErrMsg fromPath toPath), none⟩
          | some e => Except.error e
          | none => Except.ok ⟨true, [], some (copy2Target env.isdir fromPath toPath)⟩

/-- fb.py lines 763-790, the move handler's `move_item`: same
structure, with a single `shutil.move` call guarded by
`except shutil.Error` only. -/
def move_item_move (env : Env) (root name destination : Str) (is_dir : Bool) :
    Except PyExc MoveItemRes :=
  if hiddenSkip env.hidden name then Except.ok ⟨false, [], none⟩
  else
    match env.patReq name with
    | none => Except.ok ⟨false, [], none⟩
    | some mo =>
      let fromPath := root ++ '/' :: name
      let dest := adjustDest env.isdir is_dir destination name
      match regex_sub mo dest with
      | Except.error e => Except.error e
      | Except.ok toPath =>
        match env.moveExc fromPath toPath with
        | some PyExc.shutilError =>
          Except.ok ⟨false, errLines env.verbose (moveErrMsg fromPath toPath), none⟩
        | some e => Except.error e
        | none => Except.ok ⟨true, [], none⟩

/-- fb.py lines 733-735: `for file in files: if move_item(file,
output_path, False): results_files += 1`.  Returns the final count and
the emitted error lines; an uncaught exception aborts the loop. -/
def copyFilesLoop (env : Env) (root destination : Str) :
    List Str → Except PyExc (Nat × List Str)
  | [] => Except.ok (0, [])
  | f :: rest =>
    match move_item_copy env root f destination false with
    | Except.error e => Except.error e
    | Except.ok r =>
      match copyFilesLoop env root destination rest with
      | Except.error e => Except.error e
      | Except.ok p => Except.ok ((if r.ret then 1 else 0) + p.1, r.errs ++ p.2)

/-- fb.py lines 730-732: the copy handler's directory loop. -/
def copyDirsLoop (env : Env) (root destination : Str) :
    List Str → Except PyExc (Nat × List Str)
  | [] => Except.ok (0, [])
  | d :: rest =>
    match move_item_copy env root d destination true with
    | Except.error e => Except.error e
    | Except.ok r =>
      match copyDirsLoop env root destination rest with
      | Except.error e => Except.error e
      | Except.ok p => Except.ok ((if r.ret then 1 else 0) + p.1, r.errs ++ p.2)

/-- fb.py lines 795-797: the move handler's file loop. -/
def moveFilesLoop (env : Env) (root destination : Str) :
    List Str → Except PyExc (Nat × List Str)
  | [] => Except.ok (0, [])
  | f :: rest =>
    match move_item_move env root f destination false with
    | Except.error e => Except.error e
    | Except.ok r =>
      match moveFilesLoop env root destination rest with
      | Except.error e => Except.error e
      | Except.ok p => Except.ok ((if r.ret then 1 else 0) + p.1, r.errs ++ p.2)

/-- fb.py lines 792-794: the move handler's directory loop. -/
def moveDirsLoop (env : Env) (root destination : Str) :
    List Str → Except PyExc (Nat × List Str)
  | [] => Except.ok (0, [])
  | d :: rest =>
    match move_item_move env root d destination true with
    | Except.error e => Except.error e
    | Except.ok r =>
      match moveDirsLoop env root destination rest with
      | Except.error e => Except.error e
      | Except.ok p => Except.ok ((if r.ret then 1 else 0) + p.1, r.errs ++ p.2)

/-! ### The seven command handlers and their summary tables -/

/-- A value of a summary-table entry (the dicts hold counters and, for
the injected elapsed time, a string). -/
inductive Val where
  | nat : Nat → Val
  | str : Str → Val
deriving DecidableEq, Repr

/-- One summary table: title and ordered key/value entries. -/
abbrev Table := Str × List (Str × Val)

/-- The seven commands. -/
inductive Cmd where
  | search
  | list
  | size
  | rename
  | delete
  | copy
  | move
deriving DecidableEq, Repr

/-- The walk-entry stream every handler except size pass 1 consumes:
`os.walk(directory)` cut short by `if not recursive: break`. -/
def entriesOf (env : Env) : List WalkEntry :=
  walkLoop env.recursive (walkTD env.dir env.tree)

/-- Accumulator of the search handler: `results_count`,
`results_names` and `results_contents` (fb.py lines 319-321). -/
structure SearchAcc where
  count : Nat
  names : List Str
  contents : List (Str × Nat)

/-- Hits of the content pattern in a file: one `re.search` per line,
counting matching lines (fb.py lines 378-388). -/
def countHits (contentPat : Str → Option PyMatch) (lines : List Str) : Nat :=
  (lines.filter (fun l => (contentPat l).isSome)).length

/-- fb.py lines 352-395, the search handler's `for file in files`
body.  With a name pattern, a non-matching file is skipped entirely;
a matching one is recorded in `results_names` and `printedFileName`
is set.  The content scan reads the file (an unreadable file is a
caught, verbose-only error and `continue`s — so nothing is recorded in
`results_contents` even for a name-matched file).  After the scan,
`results_contents[full_path] = hits` exactly when `printedFileName`
was set, i.e. the name matched or at least one line hit. -/
def searchFileStep (env : Env) (root : Str) (acc : SearchAcc) (f : Str) : SearchAcc :=
  if hiddenSkip env.hidden f then acc
  else
    let fullPath := root ++ '/' :: f
    match env.namePat with
    | some np =>
      match np f with
      | none => acc
      | some _ =>
        let acc1 := { acc with names := acc.names ++ [fullPath] }
        match env.readFile fullPath with
        | Except.error _ => acc1
        | Except.ok lines =>
          { acc1 with
            contents := acc1.contents ++ [(fullPath, countHits env.contentPat lines)] }
    | none =>
      match env.readFile fullPath with
      | Except.error _ => acc
      | Except.ok lines =>
        let hits := countHits env.contentPat lines
        if hits > 0 then { acc with contents := acc.contents ++ [(fullPath, hits)] }
        else acc

/-- fb.py lines 336-349: with a name pattern, matching non-hidden
subdirectory names are appended to `results_names` (with a trailing
separator). -/
def searchDirsStep (env : Env) (root : Str) (acc : SearchAcc) (dirs : List Str) :
    SearchAcc :=
  match env.namePat with
  | none => acc
  | some np =>
    { acc with
      names := acc.names ++
        ((dirs.filter (fun d => !hiddenSkip env.hidden d && (np d).isSome)).map
          (fun d => root ++ '/' :: (d ++ ['/']))) }

/-- One iteration of the search handler's walk loop (fb.py lines
322-397): normalize, hidden-root filter, `results_count += 1`, then
the directory and file passes. -/
def searchEntryStep (env : Env) (acc : SearchAcc) (e : WalkEntry) : SearchAcc :=
  let root := fix_path e.1
  if !env.hidden && occursIn ['/', '.'] root then acc
  else
    let acc1 : SearchAcc := ⟨acc.count + 1, acc.names, acc.contents⟩
    let acc2 := searchDirsStep env root acc1 e.2.1
    e.2.2.foldl (searchFileStep env root) acc2

/-- fb.py lines 398-399: the two tables the search handler appends. -/
def searchTables (env : Env) : List Table :=
  let r := (entriesOf env).foldl (searchEntryStep env) ⟨0, [], []⟩
  [("Summary".toList,
    [("Directories Searched".toList, Val.nat r.count),
     ("Directories Found".toList, Val.nat r.contents.length),
     ("Files Found".toList, Val.nat r.names.length),
     ("Hits Found".toList, Val.nat (r.contents.map Prod.snd).sum)]),
   ("Hits".toList, r.contents.map (fun p => (p.1, Val.nat p.2)))]

/-- One iteration of the list handler's walk loop (fb.py lines
409-461).  In the name-pattern branch matching directories are printed
but `results_directory_count` is *not* incremented (fb.py lines
418-426); files are counted in both branches. -/
def listEntryStep (env : Env) (acc : Nat × Nat) (e : WalkEntry) : Nat × Nat :=
  let root := fix_path e.1
  if !env.hidden && occursIn ['/', '.'] root then acc
  else
    match env.namePat with
    | some np =>
      (acc.1, acc.2 + (e.2.2.filter (fun f => !hiddenSkip env.hidden f && (np f).isSome)).length)
    | none =>
      (acc.1 + (e.2.1.filter (fun d => !hiddenSkip env.hidden d)).length,
       acc.2 + (e.2.2.filter (fun f => !hiddenSkip env.hidden f)).length)

/-- fb.py line 462: the list handler's table. -/
def listTables (env : Env) : List Table :=
  let r := (entriesOf env).foldl (listEntryStep env) (0, 0)
  [("Summary".toList,
    [("Directory Count".toList, Val.nat r.1), ("File Count".toList, Val.nat r.2)])]

/-- The paths the size command's *second* pass prints (fb.py lines
511-550): a top-down walk, honoring `recursive` and the name pattern;
the byte-count rendering of each line is elided. -/
def sizePass2Entry (env : Env) (e : WalkEntry) : List Str :=
  let root := fix_path e.1
  if !env.hidden && occursIn ['/', '.'] root then []
  else
    let keep : Str → Bool := fun n =>
      !hiddenSkip env.hidden n &&
        (match env.namePat with
         | some np => (np n).isSome
         | none => true)
    ((e.2.1.filter keep).map (fun d => root ++ '/' :: (d ++ ['/']))) ++
      ((e.2.2.filter keep).map (fun f => root ++ '/' :: f))

/-- All lines of size pass 2. -/
def sizePass2Lines (env : Env) : List Str :=
  (entriesOf env).flatMap (sizePass2Entry env)

/-- The `getsize` calls of a full size run: pass 1 walks
`os.walk(directory, topdown=False)` in its entirety — the loop body
never consults `recursive` (fb.py lines 471-508). -/
def sizeQueried (env : Env) : List Str :=
  (sizePass1 env.hidden env.fsize (walkBU env.dir env.tree)).2

/-- fb.py line 551: the size handler appends `('Summary', {})`. -/
def sizeTables (_ : Env) : List Table :=
  [("Summary".toList, [])]

/-- fb.py lines 576-595, the rename closure: hidden filter, pattern
match, `regex_sub` into the new-name template (raised *before* the
`try`, so a `TypeError` propagates), then `os.rename` guarded by a
catch-all `except Exception` (a failure is verbose-only and yields
`False`). -/
def renameOne (env : Env) (root name : Str) : Except PyExc Bool :=
  if hiddenSkip env.hidden name then Except.ok false
  else
    match env.patReq name with
    | none => Except.ok false
    | some mo =>
      match regex_sub mo env.newName with
      | Except.error e => Except.error e
      | Except.ok sub =>
        match env.renameExc (root ++ '/' :: name) (root ++ '/' :: sub) with
        | some _ => Except.ok false
        | none => Except.ok true

/-- A rename pass over one name list, counting successes. -/
def renameLoop (env : Env) (root : Str) : List Str → Except PyExc Nat
  | [] => Except.ok 0
  | n :: rest =>
    match renameOne env root n with
    | Except.error e => Except.error e
    | Except.ok b =>
      match renameLoop env root rest with
      | Except.error e => Except.error e
      | Except.ok k => Except.ok ((if b then 1 else 0) + k)

/-- The rename handler's walk loop (fb.py lines 570-605). -/
def renameEntriesLoop (env : Env) : List WalkEntry → Except PyExc (Nat × Nat)
  | [] => Except.ok (0, 0)
  | e :: rest =>
    let root := fix_path e.1
    if !env.hidden && occursIn ['/', '.'] root then renameEntriesLoop env rest
    else
      match renameLoop env root e.2.1 with
      | Except.error ex => Except.error ex
      | Except.ok d =>
        match renameLoop env root e.2.2 with
        | Except.error ex => Except.error ex
        | Except.ok f =>
          match renameEntriesLoop env rest with
          | Except.error ex => Except.error ex
          | Except.ok r => Except.ok (d + r.1, f + r.2)

/-- fb.py line 606: the rename handler's table. -/
def renameTables (env : Env) : Except PyExc (List Table) :=
  match renameEntriesLoop env (entriesOf env) with
  | Except.error ex => Except.error ex
  | Except.ok r =>
    Except.ok [("Summary".toList,
      [("Directories renamed: ".toList, Val.nat r.1),
       ("Files renamed: ".toList, Val.nat r.2)])]

/-- fb.py lines 626-659, the delete closure: hidden filter, pattern
match, then the removal block — including its internal bottom-up walk
of a matched directory, which `deleteExc` absorbs — guarded by a
catch-all `except Exception`, so the closure never throws. -/
def deleteOne (env : Env) (root name : Str) : Bool :=
  if hiddenSkip env.hidden name then false
  else
    match env.patReq name with
    | none => false
    | some _ =>
      match env.deleteExc (root ++ '/' :: name) with
      | some _ => false
      | none => true

/-- The delete handler's walk loop (fb.py lines 620-669). -/
def deleteEntriesLoop (env : Env) : List WalkEntry → Nat × Nat
  | [] => (0, 0)
  | e :: rest =>
    let root := fix_path e.1
    if !env.hidden && occursIn ['/', '.'] root then deleteEntriesLoop env rest
    else
      let r := deleteEntriesLoop env rest
      ((e.2.1.filter (deleteOne env root)).length + r.1,
       (e.2.2.filter (deleteOne env root)).length + r.2)

/-- fb.py line 670: the delete handler's table. -/
def deleteTables (env : Env) : List Table :=
  let r := deleteEntriesLoop env (entriesOf env)
  [("Summary".toList,
    [("Directories deleted: ".toList, Val.nat r.1),
     ("Files deleted: ".toList, Val.nat r.2)])]

/-- The copy handler's walk loop (fb.py lines 688-738). -/
def copyEntriesLoop (env : Env) : List WalkEntry → Except PyExc (Nat × Nat × List Str)
  | [] => Except.ok (0, 0, [])
  | e :: rest =>
    let root := fix_path e.1
    if !env.hidden && occursIn ['/', '.'] root then copyEntriesLoop env rest
    else
      match copyDirsLoop env root env.outputPath e.2.1 with
      | Except.error ex => Except.error ex
      | Except.ok p =>
        match copyFilesLoop env root env.outputPath e.2.2 with
        | Except.error ex => Except.error ex
        | Except.ok q =>
          match copyEntriesLoop env rest with
          | Except.error ex => Except.error ex
          | Except.ok r => Except.ok (p.1 + r.1, q.1 + r.2.1, p.2 ++ q.2 ++ r.2.2)

/-- fb.py line 739: the copy handler's table. -/
def copyTables (env : Env) : Except PyExc (List Table) :=
  match copyEntriesLoop env (entriesOf env) with
  | Except.error ex => Except.error ex
  | Except.ok r =>
    Except.ok [("Summary".toList,
      [("Directories copied: ".toList, Val.nat r.1),
       ("Files copied: ".toList, Val.nat r.2.1)])]

/-- The move handler's walk loop (fb.py lines 757-800). -/
def moveEntriesLoop (env : Env) : List WalkEntry → Except PyExc (Nat × Nat × List Str)
  | [] => Except.ok (0, 0, [])
  | e :: rest =>
    let root := fix_path e.1
    if !env.hidden && occursIn ['/', '.'] root then moveEntriesLoop env rest
    else
      match moveDirsLoop env root env.outputPath e.2.1 with
      | Except.error ex => Except.error ex
      | Except.ok p =>
        match moveFilesLoop env root env.outputPath e.2.2 with
        | Except.error ex => Except.error ex
        | Except.ok q =>
          match moveEntriesLoop env rest with
          | Except.error ex => Except.error ex
          | Except.ok r => Except.ok (p.1 + r.1, q.1 + r.2.1, p.2 ++ q.2 ++ r.2.2)

/-- fb.py line 801: the move handler's table. -/
def moveTables (env : Env) : Except PyExc (List Table) :=
  match moveEntriesLoop env (entriesOf env) with
  | Except.error ex => Except.error ex
  | Except.ok r =>
    Except.ok [("Summary".toList,
      [("Directories moved: ".toList, Val.nat r.1),
       ("Files moved: ".toList, Val.nat r.2.1)])]

/-- The list of summary tables a command branch leaves in `tables`
when it completes normally (fb.py lines 299-801); an uncaught
exception during the branch is the `Except.error` case.  Output lines
are modelled as in file-output mode, where emitting a line cannot
throw. -/
def runTables (env : Env) : Cmd → Except PyExc (List Table)
  | Cmd.search => Except.ok (searchTables env)
  | Cmd.list => Except.ok (listTables env)
  | Cmd.size => Except.ok (sizeTables env)
  | Cmd.rename => renameTables env
  | Cmd.delete => Except.ok (deleteTables env)
  | Cmd.copy => copyTables env
  | Cmd.move => moveTables env

/-- fb.py line 811: `tables[0][1]['Elapsed Time'] = elapsed_str` —
defined only when the table list is non-empty. -/
def injectElapsed (tabs : List Table) (e : Str) : Option (List Table) :=
  match tabs with
  | [] => none
  | (t, kv) :: rest =>
    some ((t, kv ++ [("Elapsed Time".toList, Val.str e)]) :: rest)

/-- Truncation of a tree at depth one: the immediate subdirectory
names and files are kept, everything below is dropped.  A handler
whose results are unchanged by this truncation consults nothing below
the first level. -/
def pruneDirs : DirList → DirList
  | DirList.nil => DirList.nil
  | DirList.cons d _ rest => DirList.cons d (FTree.mk DirList.nil []) (pruneDirs rest)

/-- See `pruneDirs`. -/
def pruneTree : FTree → FTree
  | FTree.mk ds files => FTree.mk (pruneDirs ds) files

/-- The match object of the Python pattern `(a)|(b)` against the text
`"a"`: two capturing groups, group 0 and group 1 are `"a"`, and group 2
is in range but did not participate (`m.group(2) is None`). -/
def mAlt : PyMatch :=
  ⟨['a'], 0, 1, fun i => if i ≤ 1 then some ['a'] else none, 2⟩

/-- The match object of the spec's `substitute` example: groups
`{0: "abc", 1: "a", 2: "bc"}` from a two-group pattern. -/
def mAbc : PyMatch :=
  ⟨['a', 'b', 'c'], 0, 3,
   fun i =>
     if i = 0 then some ['a', 'b', 'c']
     else if i = 1 then some ['a']
     else if i = 2 then some ['b', 'c']
     else none,
   2⟩

/-- A concrete run environment: directory `"."` containing the file
`"g"` and the subdirectory `"sub"`, which contains the file `"f"`;
non-recursive, non-verbose, no patterns, every filesystem operation
succeeding and every file one byte large. -/
def envBase : Env :=
  { hidden := false
    verbose := false
    recursive := false
    dir := ['.']
    tree := FTree.mk
      (DirList.cons ['s', 'u', 'b'] (FTree.mk DirList.nil [['f']]) DirList.nil)
      [['g']]
    namePat := none
    patReq := fun _ => none
    contentPat := fun _ => none
    readFile := fun _ => Except.ok []
    newName := []
    outputPath := []
    isdir := fun _ => false
    renameExc := fun _ _ => none
    deleteExc := fun _ => none
    copy2Exc := fun _ _ => none
    copytreeExc := fun _ _ => none
    moveExc := fun _ _ => none
    fsize := fun _ => Except.ok 1 }

/-- An environment whose `shutil.copy2` raises a `PermissionError`-like
`OSError` (not a `shutil.Error`): the `-p` pattern matches every name. -/
def envOsFail : Env :=
  { envBase with
    patReq := fun _ => some mAbc
    copy2Exc := fun _ _ => some PyExc.osError }

/-- An environment whose `shutil.copy2` and `shutil.move` raise
`shutil.Error`, the one exception class the handlers catch. -/
def envShutil : Env :=
  { envBase with
    verbose := true
    patReq := fun _ => some mAbc
    copy2Exc := fun _ _ => some PyExc.shutilError
    moveExc := fun _ _ => some PyExc.shutilError }

/-- An environment for the copy command in which the destination
`"out"` is an existing directory and every copy succeeds; the `-p`
pattern matches every name. -/
def envCopyDir : Env :=
  { envBase with
    patReq := fun _ => some mAbc
    isdir := fun s => s = ['o', 'u', 't'] }

/-! ## Theorems -/

/-! ### Claim C4 — the path normalizer -/

theorem rds_cons₂ (a b : Char) (t : Str) :
    replaceDoubleSlash (a :: b :: t) =
      if a = '/' ∧ b = '/' then '/' :: replaceDoubleSlash t
      else a :: replaceDoubleSlash (b :: t) := by
  by_cases ha : a = '/'
  · by_cases hb : b = '/'
    · subst ha; subst hb; simp [replaceDoubleSlash]
    · rw [replaceDoubleSlash.eq_def]
      split
      · rename_i heq
        simp at heq
        exact absurd heq.2.1 hb
      · rename_i heq
        cases heq
        simp [ha, hb]
      · rename_i heq
        cases heq
  · rw [replaceDoubleSlash.eq_def]
    split
    · rename_i heq
      simp at heq
      exact absurd heq.1 ha
    · rename_i heq
      cases heq
      simp [ha]
    · rename_i heq
      cases heq

theorem hasDouble_cons (a : Char) (x : Str) :
    hasDoubleSlash (a :: x) =
      ((a = '/' && x.head? = some '/') || hasDoubleSlash x) := by
  rcases x with _ | ⟨b, t⟩
  · simp [hasDoubleSlash]
  · by_cases ha : a = '/'
    · by_cases hb : b = '/'
      · subst ha; subst hb; simp [hasDoubleSlash]
      · subst ha
        rw [hasDoubleSlash.eq_def]
        split
        · rename_i heq
          simp at heq
          exact absurd heq.1 hb
        · rename_i heq
          cases heq
          simp [hb]
        · rename_i heq
          cases heq
    · rw [hasDoubleSlash.eq_def]
      split
      · rename_i heq
        simp at heq
        exact absurd heq.1 ha
      · rename_i heq
        cases heq
        simp [ha]
      · rename_i heq
        cases heq

theorem hasTriple_cons₃ (a b c : Char) (t : Str) :
    hasTripleSlash (a :: b :: c :: t) =
      ((a = '/' && b = '/' && c = '/') || hasTripleSlash (b :: c :: t)) := by
  rw [hasTripleSlash.eq_def]
  split
  · rename_i heq
    simp only [List.cons.injEq] at heq
    obtain ⟨rfl, rfl, rfl, rfl⟩ := heq
    simp [hasTripleSlash]
  · rename_i guard heq
    cases heq
    have hf : (a = '/' && b = '/' && c = '/') = false := by
      by_contra hcon
      rw [Bool.not_eq_false] at hcon
      simp only [Bool.and_eq_true, decide_eq_true_eq] at hcon
      obtain ⟨⟨ha, hb⟩, hc⟩ := hcon
      exact guard t ha (by rw [hb, hc])
    rw [hf]
    simp
  · rename_i heq
    cases heq

theorem hasTriple_tail (x : Char) (r : Str) (h : hasTripleSlash (x :: r) = false) :
    hasTripleSlash r = false := by
  rcases r with _ | ⟨b, _ | ⟨c, t⟩⟩
  · simp [hasTripleSlash]
  · simp [hasTripleSlash.eq_def]
  · rw [hasTriple_cons₃] at h
    simp at h
    exact h.2

theorem rds_of_no_double (l : Str) (h : hasDoubleSlash l = false) :
    replaceDoubleSlash l = l := by
  induction l with
  | nil => rfl
  | cons a tl ih =>
    rcases tl with _ | ⟨b, t⟩
    · simp [replaceDoubleSlash]
    · rw [hasDouble_cons] at h
      simp only [Bool.or_eq_false_iff] at h
      have hab : ¬(a = '/' ∧ b = '/') := by
        intro hcon
        rw [hcon.1, hcon.2] at h
        simp at h
      rw [rds_cons₂, if_neg hab, ih h.2]

theorem rds_head (c : Char) (t : Str) (hc : c ≠ '/') :
    (replaceDoubleSlash (c :: t)).head? = some c := by
  rcases t with _ | ⟨b, u⟩
  · simp [replaceDoubleSlash]
  · rw [rds_cons₂, if_neg (by tauto)]
    rfl

theorem rds_no_double (l : Str) : hasTripleSlash l = false →
    hasDoubleSlash (replaceDoubleSlash l) = false := by
  induction l using replaceDoubleSlash.induct with
  | case1 rest ih =>
    intro h
    rw [show replaceDoubleSlash ('/' :: '/' :: rest) = '/' :: replaceDoubleSlash rest from by
      rw [rds_cons₂, if_pos ⟨rfl, rfl⟩]]
    rw [hasDouble_cons]
    rcases rest with _ | ⟨c, t⟩
    · simp [replaceDoubleSlash, hasDoubleSlash]
    · have hc : c ≠ '/' := by
        intro hcon
        subst hcon
        rw [hasTriple_cons₃] at h
        simp at h
      have htail : hasTripleSlash (c :: t) = false :=
        hasTriple_tail _ _ (hasTriple_tail _ _ h)
      rw [ih htail, rds_head c t hc]
      simp [hc]
  | case2 c rest hguard ih =>
    intro h
    rw [show replaceDoubleSlash (c :: rest) = c :: replaceDoubleSlash rest from by
      rcases rest with _ | ⟨b, t⟩
      · simp [replaceDoubleSlash]
      · have : ¬(c = '/' ∧ b = '/') := by
          intro hcon
          exact hguard t hcon.1 (by rw [hcon.2])
        rw [rds_cons₂, if_neg this]]
    rw [hasDouble_cons, ih (hasTriple_tail _ _ h)]
    rcases rest with _ | ⟨b, t⟩
    · simp [replaceDoubleSlash]
    · by_cases hc : c = '/'
      · have hb : b ≠ '/' := by
          intro hcon
          exact hguard t hc (by rw [hcon])
        rw [rds_head b t hb]
        simp [hb]
      · simp [hc]
  | case3 =>
    intro _
    simp [replaceDoubleSlash, hasDoubleSlash]

theorem mem_rds (c : Char) (l : Str) (h : c ∈ replaceDoubleSlash l) : c ∈ l := by
  induction l using replaceDoubleSlash.induct with
  | case1 rest ih =>
    rw [show replaceDoubleSlash ('/' :: '/' :: rest) = '/' :: replaceDoubleSlash rest from by
      rw [rds_cons₂, if_pos ⟨rfl, rfl⟩]] at h
    rcases List.mem_cons.mp h with h1 | h2
    · simp [h1]
    · exact List.mem_cons_of_mem _ (List.mem_cons_of_mem _ (ih h2))
  | case2 a rest hguard ih =>
    rw [show replaceDoubleSlash (a :: rest) = a :: replaceDoubleSlash rest from by
      rcases rest with _ | ⟨b, t⟩
      · simp [replaceDoubleSlash]
      · have : ¬(a = '/' ∧ b = '/') := by
          intro hcon
          exact hguard t hcon.1 (by rw [hcon.2])
        rw [rds_cons₂, if_neg this]] at h
    rcases List.mem_cons.mp h with h1 | h2
    · simp [h1]
    · exact List.mem_cons_of_mem _ (ih h2)
  | case3 =>
    simp [replaceDoubleSlash] at h

theorem replaceBackslash_no_bs (l : Str) : '\\' ∉ replaceBackslash l := by
  intro h
  simp only [replaceBackslash, List.mem_map] at h
  obtain ⟨c, -, hc⟩ := h
  by_cases h2 : c = '\\' <;> simp [h2] at hc

theorem replaceBackslash_id (l : Str) (h : '\\' ∉ l) : replaceBackslash l = l := by
  induction l with
  | nil => rfl
  | cons a t ih =>
    simp only [List.mem_cons, not_or] at h
    have ha : a ≠ '\\' := fun hcon => h.1 hcon.symm
    simp only [replaceBackslash, List.map_cons]
    rw [if_neg ha]
    exact congrArg (a :: ·) (ih h.2)

/-- Claim C4, counterexample: the path normalizer is *not* idempotent.
`fix_path "///" = "//"` (the single left-to-right pass of
`str.replace('//', '/')` collapses only the first slash pair and
resumes after it), while `fix_path "//" = "/"`, so normalizing the
input `"///"` twice differs from normalizing it once. -/
theorem C4_counterexample :
    fix_path (fix_path ['/', '/', '/']) ≠ fix_path ['/', '/', '/'] := by
  decide

/-- Claim C4, amended: `fix_path` is total (it never fails) and it is
idempotent on every input that — after backslashes are turned into
slashes — contains no run of three or more consecutive slashes; on
inputs with such a run the single replacement pass leaves doubled
slashes behind and a second application collapses them further. -/
theorem C4_theorem (p : Str) (h : hasTripleSlash (replaceBackslash p) = false) :
    fix_path (fix_path p) = fix_path p := by
  unfold fix_path
  have hbs : replaceBackslash (replaceDoubleSlash (replaceBackslash p)) =
      replaceDoubleSlash (replaceBackslash p) := by
    apply replaceBackslash_id
    intro hmem
    exact replaceBackslash_no_bs p (mem_rds _ _ hmem)
  rw [hbs]
  exact rds_of_no_double _ (rds_no_double _ h)

/-- Witness for `C4_theorem` at the concrete input `"a\\b//c"`. -/
theorem C4_theorem_witness :
    hasTripleSlash (replaceBackslash ['a', '\\', 'b', '/', '/', 'c']) = false ∧
      fix_path (fix_path ['a', '\\', 'b', '/', '/', 'c']) =
        fix_path ['a', '\\', 'b', '/', '/', 'c'] :=
  ⟨by decide, C4_theorem ['a', '\\', 'b', '/', '/', 'c'] (by decide)⟩

/-! ### Claims C1 and C8 — template substitution -/

theorem regex_sub_nil (m : PyMatch) : regex_sub m [] = Except.ok [] := by
  rw [regex_sub.eq_def]
  rfl

theorem regex_sub_cons_none (m : PyMatch) (c : Char) (rest : Str)
    (h : parseGroupRef (c :: rest) = none) :
    regex_sub m (c :: rest) =
      match regex_sub m rest with
      | Except.ok r => Except.ok (c :: r)
      | Except.error e => Except.error e := by
  rw [regex_sub.eq_def]
  split
  · rename_i kt heq
    rw [h] at heq
    cases heq
  · rfl

theorem takeWhile_dropWhile_append (p : Char → Bool) (l r : Str)
    (h : l.dropWhile p ≠ []) :
    (l ++ r).takeWhile p = l.takeWhile p ∧ (l ++ r).dropWhile p = l.dropWhile p ++ r := by
  induction l with
  | nil => simp at h
  | cons a t ih =>
    by_cases ha : p a
    · rw [List.dropWhile_cons_of_pos ha] at h
      obtain ⟨h1, h2⟩ := ih h
      constructor
      · rw [List.cons_append, List.takeWhile_cons_of_pos ha,
          List.takeWhile_cons_of_pos ha, h1]
      · rw [List.cons_append, List.dropWhile_cons_of_pos ha,
          List.dropWhile_cons_of_pos ha, h2]
    · have ha' : p a = false := by simpa using ha
      constructor
      · rw [List.cons_append, List.takeWhile_cons_of_neg (by simp [ha']),
          List.takeWhile_cons_of_neg (by simp [ha'])]
      · rw [List.cons_append, List.dropWhile_cons_of_neg (by simp [ha']),
          List.dropWhile_cons_of_neg (by simp [ha']), List.cons_append]

theorem parseGroupRef_not_dollar (l : Str) (h : l.head? ≠ some '$') :
    parseGroupRef l = none := by
  rcases l with _ | ⟨a, _ | ⟨b, t⟩⟩
  · rfl
  · rfl
  · rw [parseGroupRef]
    rw [if_neg (fun hcon => h (by rw [hcon]; rfl))]

theorem parseGroupRef_none_append (c : Char) (xs q : Str)
    (h : parseGroupRef (c :: xs) = none) :
    parseGroupRef (c :: xs ++ '$' :: q) = none := by
  by_cases hc : c = '$'
  · subst hc
    rcases xs with _ | ⟨b, xs2⟩
    · show parseGroupRef ('$' :: '$' :: q) = none
      rw [parseGroupRef]
      rw [if_pos rfl, if_neg (by decide)]
    · by_cases hb : b = '('
      · subst hb
        rw [parseGroupRef] at h
        rw [if_pos rfl, if_pos rfl] at h
        simp only [List.cons_append]
        rw [parseGroupRef]
        rw [if_pos rfl, if_pos rfl]
        by_cases hT : xs2.takeWhile Char.isDigit = []
        · rcases xs2 with _ | ⟨d, u⟩
          · rw [if_pos (by rw [List.nil_append, List.takeWhile_cons_of_neg (by decide)])]
          · have hd : Char.isDigit d = false := by
              by_contra hcon
              rw [Bool.not_eq_false] at hcon
              rw [List.takeWhile_cons_of_pos hcon] at hT
              cases hT
            rw [if_pos (by rw [List.cons_append, List.takeWhile_cons_of_neg (by simp [hd])])]
        · rw [if_neg hT] at h
          rcases hD : xs2.dropWhile Char.isDigit with _ | ⟨e, t⟩
          · have hall : ∀ x ∈ xs2, Char.isDigit x :=
              List.dropWhile_eq_nil_iff.mp hD
            have h1 : (xs2 ++ '$' :: q).takeWhile Char.isDigit =
                xs2 ++ ('$' :: q).takeWhile Char.isDigit :=
              List.takeWhile_append_of_pos hall
            have h2 : (xs2 ++ '$' :: q).dropWhile Char.isDigit =
                ('$' :: q).dropWhile Char.isDigit :=
              List.dropWhile_append_of_pos hall
            rw [List.takeWhile_cons_of_neg (by decide)] at h1
            rw [List.dropWhile_cons_of_neg (by decide)] at h2
            rw [if_neg (by
              rw [h1]
              simp only [List.append_nil]
              intro hcon
              rw [hcon] at hT
              exact hT (by simp))]
            rw [h2]
            rfl
          · have hne : xs2.dropWhile Char.isDigit ≠ [] := by rw [hD]; simp
            obtain ⟨h1, h2⟩ := takeWhile_dropWhile_append Char.isDigit xs2 ('$' :: q) hne
            rw [if_neg (by rw [h1]; exact hT)]
            rw [h2, hD]
            rw [hD] at h
            have he : e ≠ ')' := by
              intro hcon
              subst hcon
              simp at h
            simp only [List.cons_append]
            split
            · rename_i tail heq
              simp only [List.cons.injEq] at heq
              exact absurd heq.1 he
            · rfl
      · simp only [List.cons_append]
        rw [parseGroupRef]
        rw [if_pos rfl, if_neg hb]
  · exact parseGroupRef_not_dollar _ (by simp [hc])

theorem parseGroupRef_token (ds rest : Str) (hne : ds ≠ [])
    (hdig : ∀ c ∈ ds, Char.isDigit c) :
    parseGroupRef ('$' :: '(' :: (ds ++ ')' :: rest)) = some (digitsToNat ds, rest) := by
  rw [parseGroupRef]
  rw [if_pos rfl, if_pos rfl]
  have h1 : (ds ++ ')' :: rest).takeWhile Char.isDigit = ds := by
    rw [List.takeWhile_append_of_pos hdig, List.takeWhile_cons_of_neg (by decide)]
    simp
  have h2 : (ds ++ ')' :: rest).dropWhile Char.isDigit = ')' :: rest := by
    rw [List.dropWhile_append_of_pos hdig]
    exact List.dropWhile_cons_of_neg (by decide)
  rw [if_neg (by rw [h1]; exact hne), h2, h1]
  rfl

theorem regex_sub_token (m : PyMatch) (ds rest : Str) (hne : ds ≠ [])
    (hdig : ∀ c ∈ ds, Char.isDigit c) :
    regex_sub m ('$' :: '(' :: (ds ++ ')' :: rest)) =
      match group_replacer m (digitsToNat ds) with
      | Except.ok g =>
        match regex_sub m rest with
        | Except.ok r => Except.ok (g ++ r)
        | Except.error e => Except.error e
      | Except.error e => Except.error e := by
  rw [regex_sub.eq_def]
  split
  · rename_i kt heq
    rw [parseGroupRef_token ds rest hne hdig] at heq
    injection heq with hkt
    rw [← hkt]
  · rename_i heq
    rw [parseGroupRef_token ds rest hne hdig] at heq
    cases heq

theorem regex_sub_no_token (m : PyMatch) (cs : Str) (h : hasToken cs = false) :
    regex_sub m cs = Except.ok cs := by
  induction cs with
  | nil => exact regex_sub_nil m
  | cons c rest ih =>
    rw [hasToken] at h
    simp only [Bool.or_eq_false_iff] at h
    have hp : parseGroupRef (c :: rest) = none := by
      rcases hE : parseGroupRef (c :: rest) with _ | v
      · rfl
      · rw [hE] at h
        simp at h
    rw [regex_sub_cons_none m c rest hp, ih h.2]

theorem regex_sub_append (m : PyMatch) (pre q : Str) (h : hasToken pre = false) :
    regex_sub m (pre ++ '$' :: q) =
      match regex_sub m ('$' :: q) with
      | Except.ok r => Except.ok (pre ++ r)
      | Except.error e => Except.error e := by
  induction pre with
  | nil =>
    simp only [List.nil_append]
    rcases hE : regex_sub m ('$' :: q) with e | r <;> simp [hE]
  | cons c pre2 ih =>
    rw [hasToken] at h
    simp only [Bool.or_eq_false_iff] at h
    have hp : parseGroupRef (c :: pre2) = none := by
      rcases hE : parseGroupRef (c :: pre2) with _ | v
      · rfl
      · rw [hE] at h
        simp at h
    have hp2 : parseGroupRef (c :: pre2 ++ '$' :: q) = none :=
      parseGroupRef_none_append c pre2 q hp
    rw [List.cons_append]
    rw [regex_sub_cons_none m _ _ (by rw [← List.cons_append]; exact hp2)]
    rw [ih h.2]
    rcases hE : regex_sub m ('$' :: q) with e | r <;> simp [hE]

/-- Claim C8: the template substitution rewrites only exact `$(digits)`
tokens.  (1) A template containing no such token — including malformed
tokens like `$()` or `$(x)` and bare `$` characters — is returned
unchanged.  (2) A token-free piece of text before any `$` is copied to
the output verbatim and in place: substitution of `pre ++ '$' :: q`
is `pre` followed by the substitution of `'$' :: q` (no token can span
the boundary, because a token in progress is stopped by the `$`). -/
theorem C8_theorem :
    (∀ (m : PyMatch) (t : Str), hasToken t = false → regex_sub m t = Except.ok t) ∧
    (∀ (m : PyMatch) (pre q : Str), hasToken pre = false →
      regex_sub m (pre ++ '$' :: q) =
        match regex_sub m ('$' :: q) with
        | Except.ok r => Except.ok (pre ++ r)
        | Except.error e => Except.error e) :=
  ⟨regex_sub_no_token, regex_sub_append⟩

/-- Witness for `C8_theorem`: the malformed tokens `$()` and `$(x)` and
a bare `$` are copied unchanged, and a token-free piece `"ab"` in front
of `"$(1)"` stays in place. -/
theorem C8_theorem_witness :
    regex_sub mAbc ['$', '(', ')'] = Except.ok ['$', '(', ')'] ∧
    regex_sub mAbc ['$', '(', 'x', ')'] = Except.ok ['$', '(', 'x', ')'] ∧
    regex_sub mAbc ['a', '$', 'b'] = Except.ok ['a', '$', 'b'] ∧
    regex_sub mAbc (['a', 'b'] ++ '$' :: ['(', '1', ')']) =
      match regex_sub mAbc ('$' :: ['(', '1', ')']) with
      | Except.ok r => Except.ok (['a', 'b'] ++ r)
      | Except.error e => Except.error e :=
  ⟨ C8_theorem.1 mAbc _ (by decide),
   C8_theorem.1 mAbc _ (by decide),
   C8_theorem.1 mAbc _ (by decide),
   C8_theorem.2 mAbc ['a', 'b'] ['(', '1', ')'] (by decide)⟩

/-- Claim C1, counterexample: the claim says a reference to a capture
group that did not participate in the match is replaced with the empty
string rather than raising an error.  In fb.py, `group_replacer`
catches only `IndexError`; for the match of the pattern `(a)|(b)`
against `"a"` (two groups, group 2 unparticipating) the template
`"$(2)"` makes `match_obj.group(2)` return `None` and `re.sub` raise
`TypeError`, which nothing catches. -/
theorem C1_counterexample :
    regex_sub mAlt ['$', '(', '2', ')'] = Except.error PyExc.typeError := by
  rw [show (['$', '(', '2', ')'] : Str) = '$' :: '(' :: (['2'] ++ ')' :: []) from rfl,
    regex_sub_token mAlt ['2'] [] (by decide) (by decide)]
  rw [show group_replacer mAlt (digitsToNat ['2']) = Except.error PyExc.typeError from rfl]

/-- Claim C1, amended: `regex_sub` replaces each `$(k)` token with
capture group `k` of the match, and a reference to an *out-of-range*
group (`k` greater than the pattern's group count) is replaced with
the empty string rather than raising an error; but an in-range group
that did not participate raises `TypeError` (see `C1_counterexample`).
In particular, with groups `{0: "abc", 1: "a", 2: "bc"}` the template
`"X$(1)-$(2)Y"` yields `"Xa-bcY"` and `"$(9)"` yields `""`. -/
theorem C1_theorem :
    (∀ (m : PyMatch) (ds : Str), ds ≠ [] → (∀ c ∈ ds, Char.isDigit c) →
      digitsToNat ds > m.ngroups →
      regex_sub m ('$' :: '(' :: (ds ++ [')'])) = Except.ok []) ∧
    regex_sub mAbc
        ['X', '$', '(', '1', ')', '-', '$', '(', '2', ')', 'Y'] =
      Except.ok ['X', 'a', '-', 'b', 'c', 'Y'] ∧
    regex_sub mAbc ['$', '(', '9', ')'] = Except.ok [] := by
  refine ⟨?_, ?_, ?_⟩
  · intro m ds hne hdig hgt
    rw [show ('$' :: '(' :: (ds ++ [')']) : Str) = '$' :: '(' :: (ds ++ ')' :: []) from rfl,
      regex_sub_token m ds [] hne hdig]
    rw [show group_replacer m (digitsToNat ds) = Except.ok [] from by
      rw [group_replacer, if_pos hgt]]
    rw [regex_sub_nil]
    rfl
  · have r5 : regex_sub mAbc ['Y'] = Except.ok ['Y'] :=
      regex_sub_no_token mAbc ['Y'] (by decide)
    have r4 : regex_sub mAbc ['$', '(', '2', ')', 'Y'] = Except.ok ['b', 'c', 'Y'] := by
      rw [show (['$', '(', '2', ')', 'Y'] : Str) = '$' :: '(' :: (['2'] ++ ')' :: ['Y'])
          from rfl,
        regex_sub_token mAbc ['2'] ['Y'] (by decide) (by decide),
        show group_replacer mAbc (digitsToNat ['2']) = Except.ok ['b', 'c'] from rfl,
        r5]
      rfl
    have r3 : regex_sub mAbc ['-', '$', '(', '2', ')', 'Y'] =
        Except.ok ['-', 'b', 'c', 'Y'] := by
      rw [regex_sub_cons_none mAbc '-' _ (by decide), r4]
    have r2 : regex_sub mAbc ['$', '(', '1', ')', '-', '$', '(', '2', ')', 'Y'] =
        Except.ok ['a', '-', 'b', 'c', 'Y'] := by
      rw [show (['$', '(', '1', ')', '-', '$', '(', '2', ')', 'Y'] : Str) =
          '$' :: '(' :: (['1'] ++ ')' :: ['-', '$', '(', '2', ')', 'Y']) from rfl,
        regex_sub_token mAbc ['1'] _ (by decide) (by decide),
        show group_replacer mAbc (digitsToNat ['1']) = Except.ok ['a'] from rfl,
        r3]
      rfl
    rw [regex_sub_cons_none mAbc 'X' _ (by decide), r2]
  · rw [show (['$', '(', '9', ')'] : Str) = '$' :: '(' :: (['9'] ++ ')' :: []) from rfl,
      regex_sub_token mAbc ['9'] [] (by decide) (by decide),
      show group_replacer mAbc (digitsToNat ['9']) = Except.ok [] from rfl,
      regex_sub_nil]
    rfl

/-- Witness for `C1_theorem`'s universally quantified part at the
concrete match `mAlt` (two groups) and token `$(3)`. -/
theorem C1_theorem_witness :
    regex_sub mAlt ['$', '(', '3', ')'] = Except.ok [] :=
  C1_theorem.1 mAlt ['3'] (by decide) (by decide) (by decide)

/-! ### Claim C7 — leftmost search and the three-way split -/

theorem searchAux_some (matchAt : Nat → Option Nat) (fuel i j e : Nat)
    (h : searchAux matchAt i fuel = some (j, e)) :
    matchAt j = some e ∧ i ≤ j ∧ ∀ k, i ≤ k → k < j → matchAt k = none := by
  induction fuel generalizing i with
  | zero => simp [searchAux] at h
  | succ n ih =>
    rw [searchAux] at h
    rcases hM : matchAt i with _ | e2
    · simp only [hM] at h
      obtain ⟨h1, h2, h3⟩ := ih (i + 1) h
      refine ⟨h1, by omega, fun k hk1 hk2 => ?_⟩
      by_cases hki : k = i
      · rw [hki]; exact hM
      · exact h3 k (by omega) hk2
    · simp only [hM] at h
      injection h with hpair
      rw [Prod.mk.injEq] at hpair
      obtain ⟨rfl, rfl⟩ := hpair
      exact ⟨hM, Nat.le_refl _, fun k hk1 hk2 => by omega⟩

theorem searchAux_none (matchAt : Nat → Option Nat) (fuel i : Nat)
    (h : searchAux matchAt i fuel = none) :
    ∀ k, i ≤ k → k < i + fuel → matchAt k = none := by
  induction fuel generalizing i with
  | zero => intro k h1 h2; omega
  | succ n ih =>
    rw [searchAux] at h
    rcases hM : matchAt i with _ | e2
    · simp only [hM] at h
      intro k h1 h2
      by_cases hki : k = i
      · rw [hki]; exact hM
      · exact ih (i + 1) h k (by omega) (by omega)
    · simp [hM] at h

theorem split_reconstruct (s : Str) (i e : Nat) (h : i ≤ e) :
    s.take i ++ ((s.take e).drop i ++ s.drop e) = s := by
  have h1 : (s.take e).take i = s.take i := by
    rw [List.take_take, Nat.min_eq_left h]
  calc s.take i ++ ((s.take e).drop i ++ s.drop e)
      = ((s.take e).take i ++ (s.take e).drop i) ++ s.drop e := by
        rw [h1, List.append_assoc]
    _ = s.take e ++ s.drop e := by rw [List.take_append_drop]
    _ = s := List.take_append_drop e s

/-- Claim C7: `re.search` (modelled as the documented left-to-right
position scan over an abstract per-position matcher whose spans are
well-formed, `i ≤ e`) returns the *leftmost* match; `split_match`'s
three-way split of the subject around the returned span reconstructs
the input exactly; and an unmatched search returns the distinguishable
`none` — the embedding is a total function, it cannot throw. -/
theorem C7_theorem (s : Str) (matchAt : Nat → Option Nat)
    (hspan : ∀ i e, matchAt i = some e → i ≤ e) :
    (∀ j e, pySearch s matchAt = some (j, e) →
      (∀ k, k < j → matchAt k = none) ∧
      (split_match (mkMatch s j e)).1 ++ (split_match (mkMatch s j e)).2.1 ++
        (split_match (mkMatch s j e)).2.2 = s) ∧
    (pySearch s matchAt = none → ∀ i, i ≤ s.length → matchAt i = none) := by
  constructor
  · intro j e hje
    have hs := searchAux_some matchAt (s.length + 1) 0 j e hje
    refine ⟨fun k hk => hs.2.2 k (Nat.zero_le k) hk, ?_⟩
    simp only [split_match, mkMatch]
    rw [List.append_assoc]
    exact split_reconstruct s j e (hspan j e hs.1)
  · intro hnone i hi
    exact searchAux_none matchAt (s.length + 1) 0 hnone i (Nat.zero_le i) (by omega)

/-- Witness for `C7_theorem`: searching `"abc"` with a matcher that
matches exactly the span `(1, 3)` (the suffix `"bc"`). -/
theorem C7_theorem_witness :
    (∀ k, k < 1 → (fun i => if i = 1 then some 3 else none) k = none) ∧
    (split_match (mkMatch ['a', 'b', 'c'] 1 3)).1 ++
      (split_match (mkMatch ['a', 'b', 'c'] 1 3)).2.1 ++
      (split_match (mkMatch ['a', 'b', 'c'] 1 3)).2.2 = ['a', 'b', 'c'] :=
  ( C7_theorem ['a', 'b', 'c'] (fun i => if i = 1 then some 3 else none)
    (by
      intro i e h
      by_cases hi : i = 1
      · subst hi
        simp only [if_pos rfl] at h
        injection h with he
        omega
      · simp only [if_neg hi] at h
        cases h)).1 1 3 (by decide)

/-! ### Claim C9 — the hidden-root filter and the starting directory -/

/-- Claim C9, counterexample: the claim says the starting directory is
*always* processed when its own name begins with a dot.  But the
filter tests the whole path string: a start directory passed as
`"./.git"` (name `.git`, preceded by a separator) normalizes to a path
containing `"/."`, so the very first walk entry is skipped and nothing
is processed. -/
theorem C9_counterexample :
    processedEntries false
      (walkLoop false
        (walkTD ['.', '/', '.', 'g', 'i', 't'] (FTree.mk DirList.nil [['x']]))) = [] := by
  decide

/-- Claim C9, amended: with `includeHidden` false the hidden-root
filter skips exactly the walk entries whose normalized path contains
the substring `"/."`; consequently the starting directory (the first
walk entry) is processed if and only if the *path string it was given
as* lacks `"/."` — in particular a start directory named with a bare
leading dot (e.g. `".git"`, no separator before the dot) is processed,
while the same directory addressed as `"./.git"` is skipped. -/
theorem C9_theorem (d : Str) (ds : DirList) (files : List Str)
    (h : occursIn ['/', '.'] (fix_path d) = false) :
    processedEntries false (walkLoop false (walkTD d (FTree.mk ds files))) =
      [(d, dirNames ds, files)] := by
  rw [walkTD]
  simp only [walkLoop, if_neg (by simp : ¬(false = true)), List.take_succ_cons,
    List.take_zero]
  simp [processedEntries, rootSkip, h]

/-- Witness for `C9_theorem`: the start directory `".git"` — its name
begins with a dot but there is no separator before the dot — is
processed. -/
theorem C9_theorem_witness :
    processedEntries false
      (walkLoop false (walkTD ['.', 'g', 'i', 't'] (FTree.mk DirList.nil [['x']]))) =
      [(['.', 'g', 'i', 't'], dirNames DirList.nil, [['x']])] :=
  C9_theorem ['.', 'g', 'i', 't'] DirList.nil [['x']] (by decide)

/-! ### Claim C3 — one directory level when the recursive flag is off -/

/-- Claim C3, counterexample: the size command's first pass iterates
`os.walk(directory, topdown=False)` with no `recursive` check at all
(fb.py lines 471-508), so even a non-recursive size run reads — calls
`os.path.getsize` on — the file `"./sub/f"` two levels below the root,
contradicting "no subdirectory below the root is walked, read, or
reported" (in verbose mode each of those reads is also reported via
`print_info`). -/
theorem C3_counterexample :
    ['.', '/', 's', 'u', 'b', '/', 'f'] ∈ sizeQueried envBase := by
  decide

theorem dirNames_prune : (ds : DirList) → dirNames (pruneDirs ds) = dirNames ds
  | DirList.nil => rfl
  | DirList.cons d t rest => by
    rw [pruneDirs, dirNames, dirNames, dirNames_prune rest]

theorem entriesOf_prune (env : Env) (h : env.recursive = false) :
    entriesOf { env with tree := pruneTree env.tree } = entriesOf env := by
  rcases hT : env.tree with ⟨ds, files⟩
  simp only [entriesOf, walkLoop, h, hT, pruneTree, walkTD]
  simp [dirNames_prune]


theorem renameLoop_tree (env : Env) (t2 : FTree) (root : Str) :
    ∀ l, renameLoop { env with tree := t2 } root l = renameLoop env root l
  | [] => rfl
  | n :: rest => by
    simp only [renameLoop, renameLoop_tree env t2 root rest]
    rfl

theorem renameEntriesLoop_tree (env : Env) (t2 : FTree) :
    ∀ entries,
      renameEntriesLoop { env with tree := t2 } entries = renameEntriesLoop env entries
  | [] => rfl
  | e :: rest => by
    simp only [renameEntriesLoop, renameLoop_tree env t2,
      renameEntriesLoop_tree env t2 rest]

theorem copyFilesLoop_tree (env : Env) (t2 : FTree) (root dest : Str) :
    ∀ l, copyFilesLoop { env with tree := t2 } root dest l = copyFilesLoop env root dest l
  | [] => rfl
  | f :: rest => by
    simp only [copyFilesLoop, copyFilesLoop_tree env t2 root dest rest]
    rfl

theorem copyDirsLoop_tree (env : Env) (t2 : FTree) (root dest : Str) :
    ∀ l, copyDirsLoop { env with tree := t2 } root dest l = copyDirsLoop env root dest l
  | [] => rfl
  | d :: rest => by
    simp only [copyDirsLoop, copyDirsLoop_tree env t2 root dest rest]
    rfl

theorem copyEntriesLoop_tree (env : Env) (t2 : FTree) :
    ∀ entries,
      copyEntriesLoop { env with tree := t2 } entries = copyEntriesLoop env entries
  | [] => rfl
  | e :: rest => by
    simp only [copyEntriesLoop, copyFilesLoop_tree env t2, copyDirsLoop_tree env t2,
      copyEntriesLoop_tree env t2 rest]

theorem moveFilesLoop_tree (env : Env) (t2 : FTree) (root dest : Str) :
    ∀ l, moveFilesLoop { env with tree := t2 } root dest l = moveFilesLoop env root dest l
  | [] => rfl
  | f :: rest => by
    simp only [moveFilesLoop, moveFilesLoop_tree env t2 root dest rest]
    rfl

theorem moveDirsLoop_tree (env : Env) (t2 : FTree) (root dest : Str) :
    ∀ l, moveDirsLoop { env with tree := t2 } root dest l = moveDirsLoop env root dest l
  | [] => rfl
  | d :: rest => by
    simp only [moveDirsLoop, moveDirsLoop_tree env t2 root dest rest]
    rfl

theorem moveEntriesLoop_tree (env : Env) (t2 : FTree) :
    ∀ entries,
      moveEntriesLoop { env with tree := t2 } entries = moveEntriesLoop env entries
  | [] => rfl
  | e :: rest => by
    simp only [moveEntriesLoop, moveFilesLoop_tree env t2, moveDirsLoop_tree env t2,
      moveEntriesLoop_tree env t2 rest]

/-- Claim C3, amended: for the search, list, rename, copy and move
commands, a non-recursive run depends only on the root directory's
immediate entries: truncating the tree below depth one changes
nothing.  (The size command's accumulation pass, by contrast, always
walks the entire tree — see `C3_counterexample` — and the delete
handler walks into each *matched* directory to remove its contents.) -/
theorem C3_theorem (env : Env) (hrec : env.recursive = false) (c : Cmd)
    (hc : c ∈ [Cmd.search, Cmd.list, Cmd.rename, Cmd.copy, Cmd.move]) :
    runTables { env with tree := pruneTree env.tree } c = runTables env c := by
  have he := entriesOf_prune env hrec
  fin_cases hc
  · simp only [runTables, searchTables]
    rw [he]
    rfl
  · simp only [runTables, listTables]
    rw [he]
    rfl
  · simp only [runTables, renameTables]
    rw [he, renameEntriesLoop_tree]
  · simp only [runTables, copyTables]
    rw [he, copyEntriesLoop_tree]
  · simp only [runTables, moveTables]
    rw [he, moveEntriesLoop_tree]

/-- Witness for `C3_theorem` at the concrete environment `envBase`
(non-recursive, tree of depth two) and the list command. -/
theorem C3_theorem_witness :
    runTables { envBase with tree := pruneTree envBase.tree } Cmd.list =
      runTables envBase Cmd.list :=
  C3_theorem envBase rfl Cmd.list (by decide)

/-! ### Claim C10 — every command branch appends at least one table -/

/-- Claim C10: whenever a command branch completes normally (no
uncaught exception), the resulting list of summary tables is
non-empty — each of the seven branches appends at least one table —
so injecting the `Elapsed Time` entry into the first table is always
defined. -/
theorem C10_theorem (env : Env) (c : Cmd) (tabs : List Table)
    (h : runTables env c = Except.ok tabs) :
    tabs ≠ [] ∧ ∀ e, (injectElapsed tabs e).isSome := by
  have hne : tabs ≠ [] := by
    cases c
    · simp only [runTables] at h
      injection h with h2
      rw [← h2]
      simp [searchTables]
    · simp only [runTables] at h
      injection h with h2
      rw [← h2]
      simp [listTables]
    · simp only [runTables] at h
      injection h with h2
      rw [← h2]
      simp [sizeTables]
    · simp only [runTables, renameTables] at h
      rcases hE : renameEntriesLoop env (entriesOf env) with e | r <;> rw [hE] at h
      · cases h
      · injection h with h2
        rw [← h2]
        simp
    · simp only [runTables] at h
      injection h with h2
      rw [← h2]
      simp [deleteTables]
    · simp only [runTables, copyTables] at h
      rcases hE : copyEntriesLoop env (entriesOf env) with e | r <;> rw [hE] at h
      · cases h
      · injection h with h2
        rw [← h2]
        simp
    · simp only [runTables, moveTables] at h
      rcases hE : moveEntriesLoop env (entriesOf env) with e | r <;> rw [hE] at h
      · cases h
      · injection h with h2
        rw [← h2]
        simp
  refine ⟨hne, fun e => ?_⟩
  rcases tabs with _ | ⟨⟨t, kv⟩, rest⟩
  · exact absurd rfl hne
  · simp [injectElapsed]

/-- Witness for `C10_theorem`: the list command on the concrete
environment `envBase` completes normally with a non-empty table list. -/
theorem C10_theorem_witness :
    listTables envBase ≠ [] ∧ ∀ e, (injectElapsed (listTables envBase) e).isSome :=
  C10_theorem envBase Cmd.list (listTables envBase) rfl

/-! ### Claims C2 and C6 — copy/move error handling and destinations -/

theorem move_item_copy_eval (env : Env) (root name dest tp : Str) (mo : PyMatch)
    (hh : hiddenSkip env.hidden name = false)
    (hm : env.patReq name = some mo)
    (hs : regex_sub mo (adjustDest env.isdir false dest name) = Except.ok tp) :
    move_item_copy env root name dest false =
      match env.copy2Exc (root ++ '/' :: name) tp with
      | some PyExc.shutilError =>
        Except.ok ⟨false, errLines env.verbose (copyFileErrMsg (root ++ '/' :: name) tp),
          none⟩
      | some e => Except.error e
      | none =>
        Except.ok ⟨true, [], some (copy2Target env.isdir (root ++ '/' :: name) tp)⟩ := by
  rw [move_item_copy, if_neg (by rw [hh]; exact Bool.false_ne_true), hm]
  dsimp only
  rw [hs]
  rfl

theorem move_item_move_eval (env : Env) (root name dest tp : Str) (mo : PyMatch)
    (hh : hiddenSkip env.hidden name = false)
    (hm : env.patReq name = some mo)
    (hs : regex_sub mo (adjustDest env.isdir false dest name) = Except.ok tp) :
    move_item_move env root name dest false =
      match env.moveExc (root ++ '/' :: name) tp with
      | some PyExc.shutilError =>
        Except.ok ⟨false, errLines env.verbose (moveErrMsg (root ++ '/' :: name) tp), none⟩
      | some e => Except.error e
      | none => Except.ok ⟨true, [], none⟩ := by
  rw [move_item_move, if_neg (by rw [hh]; exact Bool.false_ne_true), hm]
  dsimp only
  rw [hs]

/-- Claim C2, counterexample: the claim says *any* exception raised
while copying an entry is a per-entry recoverable error and traversal
continues.  But the handlers catch only `shutil.Error` (fb.py lines
718 and 724): in `envOsFail`, where `shutil.copy2` raises an `OSError`
that is not a `shutil.Error` (e.g. a `PermissionError`), the file loop
aborts with the uncaught exception instead of continuing. -/
theorem C2_counterexample :
    copyFilesLoop envOsFail ['.'] ['d'] [['f']] = Except.error PyExc.osError := by
  rw [copyFilesLoop]
  rw [move_item_copy_eval envOsFail ['.'] ['f'] ['d'] ['d'] mAbc (by decide) rfl
    (by
      rw [show adjustDest envOsFail.isdir false ['d'] ['f'] = ['d'] from by decide]
      exact regex_sub_no_token mAbc ['d'] (by decide))]
  rfl

/-- Claim C2, amended: for the copy and move commands only a
`shutil.Error` raised by the filesystem operation is a per-entry
recoverable error — it is reported only in verbose mode, the entry's
counter is not incremented, and the loop continues with the remaining
entries; any other exception (e.g. the `OSError` subclasses that
`shutil.copy2`/`shutil.move` raise on permission or missing-file
failures) propagates and aborts the run (see `C2_counterexample`). -/
theorem C2_theorem :
    (∀ (env : Env) (root dest f tp : Str) (rest : List Str) (mo : PyMatch),
      hiddenSkip env.hidden f = false →
      env.patReq f = some mo →
      regex_sub mo (adjustDest env.isdir false dest f) = Except.ok tp →
      env.copy2Exc (root ++ '/' :: f) tp = some PyExc.shutilError →
      copyFilesLoop env root dest (f :: rest) =
        match copyFilesLoop env root dest rest with
        | Except.ok p =>
          Except.ok (p.1,
            errLines env.verbose (copyFileErrMsg (root ++ '/' :: f) tp) ++ p.2)
        | Except.error e => Except.error e) ∧
    (∀ (env : Env) (root dest f tp : Str) (rest : List Str) (mo : PyMatch),
      hiddenSkip env.hidden f = false →
      env.patReq f = some mo →
      regex_sub mo (adjustDest env.isdir false dest f) = Except.ok tp →
      env.moveExc (root ++ '/' :: f) tp = some PyExc.shutilError →
      moveFilesLoop env root dest (f :: rest) =
        match moveFilesLoop env root dest rest with
        | Except.ok p =>
          Except.ok (p.1, errLines env.verbose (moveErrMsg (root ++ '/' :: f) tp) ++ p.2)
        | Except.error e => Except.error e) := by
  constructor
  · intro env root dest f tp rest mo hh hm hs he
    rw [copyFilesLoop, move_item_copy_eval env root f dest tp mo hh hm hs, he]
    rcases hE : copyFilesLoop env root dest rest with e | p <;> simp
  · intro env root dest f tp rest mo hh hm hs he
    rw [moveFilesLoop, move_item_move_eval env root f dest tp mo hh hm hs, he]
    rcases hE : moveFilesLoop env root dest rest with e | p <;> simp

/-- Witness for `C2_theorem`: in `envShutil` (verbose, `shutil.Error`
from both `copy2` and `move`) a failing entry `"f"` leaves the loop
equal to the loop over the remaining entries with only the verbose
error line prepended. -/
theorem C2_theorem_witness :
    (copyFilesLoop envShutil ['.'] ['d'] [['f']] =
      match copyFilesLoop envShutil ['.'] ['d'] [] with
      | Except.ok p =>
        Except.ok (p.1,
          errLines envShutil.verbose (copyFileErrMsg (['.'] ++ '/' :: ['f']) ['d']) ++ p.2)
      | Except.error e => Except.error e) ∧
    (moveFilesLoop envShutil ['.'] ['d'] [['f']] =
      match moveFilesLoop envShutil ['.'] ['d'] [] with
      | Except.ok p =>
        Except.ok (p.1,
          errLines envShutil.verbose (moveErrMsg (['.'] ++ '/' :: ['f']) ['d']) ++ p.2)
      | Except.error e => Except.error e) :=
  ⟨ C2_theorem.1 envShutil ['.'] ['d'] ['f'] ['d'] [] mAbc (by decide) rfl
    (by
      rw [show adjustDest envShutil.isdir false ['d'] ['f'] = ['d'] from by decide]
      exact regex_sub_no_token mAbc ['d'] (by decide)) rfl,
   C2_theorem.2 envShutil ['.'] ['d'] ['f'] ['d'] [] mAbc (by decide) rfl
    (by
      rw [show adjustDest envShutil.isdir false ['d'] ['f'] = ['d'] from by decide]
      exact regex_sub_no_token mAbc ['d'] (by decide)) rfl⟩

theorem basename_append (root name : Str) (h : '/' ∉ name) :
    basename (root ++ '/' :: name) = name := by
  rw [basename]
  have hrev : (root ++ '/' :: name).reverse = name.reverse ++ '/' :: root.reverse := by
    rw [List.reverse_append, List.reverse_cons, List.append_assoc]
    rfl
  rw [hrev]
  rw [List.takeWhile_append_of_pos (by
    intro c hc
    simp only [ne_eq, decide_eq_true_eq]
    intro hcon
    rw [hcon] at hc
    exact h (List.mem_reverse.mp hc))]
  rw [List.takeWhile_cons_of_neg (by decide)]
  simp

/-- Claim C6: when the matched entry is a file, the destination is an
existing directory (`os.path.isdir` true) with no trailing separator,
and the destination template holds no capture-group token, the copy
succeeds into the destination directory under the original file name:
the realized filesystem target is `dest/name`.  (The name is appended
by `shutil.copy2`'s directory-destination rule, not by the handler's
string construction, which leaves the destination unchanged in this
case.) -/
theorem C6_theorem (env : Env) (root name dest : Str) (mo : PyMatch)
    (hh : hiddenSkip env.hidden name = false)
    (hm : env.patReq name = some mo)
    (hslash : endsSlash dest = false)
    (hdir : env.isdir dest = true)
    (htok : hasToken dest = false)
    (hname : '/' ∉ name)
    (hexc : env.copy2Exc (root ++ '/' :: name) dest = none) :
    move_item_copy env root name dest false =
      Except.ok ⟨true, [], some (dest ++ '/' :: name)⟩ := by
  have hadj : adjustDest env.isdir false dest name = dest := by
    rw [adjustDest]
    simp [hslash]
  rw [move_item_copy_eval env root name dest dest mo hh hm
    (by rw [hadj]; exact regex_sub_no_token mo dest htok), hexc]
  rw [copy2Target, if_pos hdir, basename_append root name hname]

/-- Witness for `C6_theorem`: copying `report.csv` (pattern matches)
to the existing directory `out` yields `out/report.csv`. -/
theorem C6_theorem_witness :
    move_item_copy envCopyDir ['.']
      ['r', 'e', 'p', 'o', 'r', 't', '.', 'c', 's', 'v'] ['o', 'u', 't'] false =
      Except.ok ⟨true, [],
        some ['o', 'u', 't', '/', 'r', 'e', 'p', 'o', 'r', 't', '.', 'c', 's', 'v']⟩ :=
  C6_theorem envCopyDir ['.'] ['r', 'e', 'p', 'o', 'r', 't', '.', 'c', 's', 'v']
    ['o', 'u', 't'] mAbc (by decide) rfl (by decide) (by decide) (by decide) (by decide)
    rfl

/-! ### Claim C5 — terminal truncation in `print_output` -/

theorem pyFormatAux_brfree (arg : Str) (used : Bool) (a rest : Str)
    (h : braceFree a = true) :
    pyFormatAux arg used (a ++ rest) =
      match pyFormatAux arg used rest with
      | Except.ok r => Except.ok (a ++ r)
      | Except.error e => Except.error e := by
  induction a with
  | nil =>
    simp only [List.nil_append]
    rcases hE : pyFormatAux arg used rest with e | r <;> simp
  | cons c a2 ih =>
    rw [braceFree, List.all_cons, Bool.and_eq_true] at h
    obtain ⟨hc, h2⟩ := h
    rw [decide_eq_true_eq] at hc
    rw [List.cons_append, pyFormatAux.eq_def]
    dsimp only
    rw [if_neg hc.1, if_neg hc.2]
    rw [ih h2]
    rcases hE : pyFormatAux arg used rest with e | r <;> simp

theorem pyFormatAux_insert (arg b : Str) :
    pyFormatAux arg false (lbr :: rbr :: b) =
      match pyFormatAux arg true b with
      | Except.ok r => Except.ok (arg ++ r)
      | Except.error e => Except.error e := by
  rw [pyFormatAux.eq_def]
  dsimp only
  rw [if_pos rfl]
  rfl

theorem pyFormatAux_ok (arg : Str) (used : Bool) (b : Str) (h : braceFree b = true) :
    pyFormatAux arg used b = Except.ok b := by
  have h0 : pyFormatAux arg used [] = Except.ok [] := by rw [pyFormatAux]
  have h1 := pyFormatAux_brfree arg used b [] h
  rw [List.append_nil, h0] at h1
  simpa using h1

theorem pyFormat_split (arg a b : Str) (ha : braceFree a = true)
    (hb : braceFree b = true) :
    pyFormat (a ++ lbr :: rbr :: b) arg = Except.ok (a ++ arg ++ b) := by
  rw [pyFormat, pyFormatAux_brfree arg false a (lbr :: rbr :: b) ha,
    pyFormatAux_insert, pyFormatAux_ok arg true b hb]
  simp [List.append_assoc]

theorem pyIndexBrace_split (a b : Str) (h : braceFree a = true) :
    pyIndexBrace (a ++ lbr :: rbr :: b) = Except.ok a.length := by
  induction a with
  | nil =>
    simp only [List.nil_append]
    rw [pyIndexBrace]
    rw [if_pos ⟨rfl, rfl⟩]
    rfl
  | cons c a2 ih =>
    rw [braceFree, List.all_cons, Bool.and_eq_true] at h
    obtain ⟨hc, h2⟩ := h
    rw [decide_eq_true_eq] at hc
    rw [List.cons_append, pyIndexBrace]
    rw [if_neg (fun hcon => hc.1 hcon.1)]
    rw [ih h2]
    rfl

theorem visibleLen_append_escFree (x y : Str) (h : escFree x = true) :
    visibleLen (x ++ y) = x.length + visibleLen y := by
  induction x with
  | nil => simp
  | cons c x2 ih =>
    rw [escFree, List.all_cons, Bool.and_eq_true] at h
    obtain ⟨hc, h2⟩ := h
    rw [decide_eq_true_eq] at hc
    rw [List.cons_append, visibleLen]
    rw [if_neg hc]
    rw [ih h2]
    simp only [List.length_cons]
    omega

theorem visibleLen_colorseq (s y : Str) (h : IsColorSeq s) :
    visibleLen (s ++ y) = visibleLen y := by
  obtain ⟨body, rfl, hm⟩ := h
  rw [show (esc :: body ++ ['m']) ++ y = esc :: (body ++ 'm' :: y) from by simp]
  rw [visibleLen, if_pos rfl]
  have hd : (body ++ 'm' :: y).dropWhile (fun d => d ≠ 'm') = 'm' :: y := by
    rw [List.dropWhile_append_of_pos (by
      intro c hc
      simp only [ne_eq, decide_eq_true_eq]
      intro hcon
      rw [hcon] at hc
      exact hm hc)]
    exact List.dropWhile_cons_of_neg (by decide)
  rw [hd]
  rfl

theorem visibleLen_reset : visibleLen resetColor = 0 := by
  have h := visibleLen_colorseq resetColor [] ⟨['[', '0'], rfl, by decide⟩
  rw [List.append_nil] at h
  rw [h, visibleLen]

theorem escFree_take (a : Str) (k : Nat) (h : escFree a = true) :
    escFree (a.take k) = true := by
  rw [escFree, List.all_eq_true] at h ⊢
  intro c hc
  exact h c (List.take_subset k a hc)

/-- Claim C5, amended: when no output file is configured and the
rendered message is longer than the terminal width `W`, the behaviour
splits on where the template's `{}` placeholder sits.  Only when the
placeholder's index is at least `W - 3` (and the template text itself
holds no escape bytes) is the line truncated to exactly `W - 3`
visible characters plus `"..."`: the printed line then has visible
length exactly `W`.  When the placeholder sits before `W - 3` the code
instead cuts `W - 3 - len(color) - len(wrapColor)` *raw* bytes, which
leaves fewer than `W - 3` visible characters (see
`C5_counterexample`); and a too-long line whose template has no
placeholder raises `ValueError` from `index('{}')` instead of
printing. -/
theorem C5_theorem (a b mtch color wrap : Str) (W : Nat)
    (hba : braceFree a = true) (hbb : braceFree b = true)
    (hea : escFree a = true)
    (hwrap : IsColorSeq wrap)
    (hW : 3 ≤ W) (hidx : W - 3 ≤ a.length)
    (hlong : (a ++ (color ++ mtch ++ wrap) ++ b).length > W) :
    Except.map visibleLen
      (print_output (a ++ lbr :: rbr :: b) mtch color wrap W) = Except.ok W := by
  have hfmt := pyFormat_split (color ++ mtch ++ wrap) a b hba hbb
  rw [print_output, hfmt]
  dsimp only
  rw [if_pos hlong]
  rw [pyIndexBrace_split a b hba]
  dsimp only
  rw [if_neg (by omega)]
  have htoNat : ((W : Int) - 3).toNat = W - 3 := by omega
  have hslice : pySliceTo (a ++ (color ++ mtch ++ wrap) ++ b) ((W : Int) - 3) =
      a.take (W - 3) := by
    rw [pySliceTo, if_neg (by omega), htoNat]
    rw [List.take_append_of_le_length (by
      rw [List.length_append]
      omega)]
    exact List.take_append_of_le_length hidx
  rw [hslice]
  dsimp only [Except.map]
  rw [show wrap ++ (a.take (W - 3) ++ ['.', '.', '.']) ++ resetColor =
      wrap ++ ((a.take (W - 3) ++ ['.', '.', '.']) ++ resetColor) from by
    rw [List.append_assoc]]
  rw [visibleLen_colorseq _ _ hwrap]
  rw [List.append_assoc]
  rw [visibleLen_append_escFree _ _ (escFree_take a (W - 3) hea)]
  rw [visibleLen_append_escFree ['.', '.', '.'] resetColor (by decide)]
  rw [visibleLen_reset]
  rw [List.length_take, Nat.min_eq_left hidx]
  congr 1
  simp only [List.length_cons, List.length_nil]
  omega

/-- Witness for `C5_theorem`: terminal width 5, template
`"ab{}cdefgh"` — the placeholder sits at index 2 = 5 − 3, so the
printed line carries exactly 2 visible characters plus `"..."`,
visible length 5. -/
theorem C5_theorem_witness :
    Except.map visibleLen
      (print_output (['a', 'b'] ++ lbr :: rbr :: ['c', 'd', 'e', 'f', 'g', 'h']) ['Z']
        matchColor resetColor 5) = Except.ok 5 :=
  C5_theorem ['a', 'b'] ['c', 'd', 'e', 'f', 'g', 'h'] ['Z'] matchColor resetColor 5
    (by decide) (by decide) (by decide) ⟨['[', '0'], rfl, by decide⟩ (by decide)
    (by decide) (by decide)

/-- Claim C5, counterexample: the claim says every over-long line is
truncated to exactly width − 3 visible characters plus `"..."` (so
visible length = the terminal width).  At width 12 with the colored
match visible (placeholder at index 0), the code cuts
`12 − 3 − len(color) − len(wrapColor) = 0` raw bytes: the printed line
is just the color wrapping around `"..."`, visible length 3, not 12. -/
theorem C5_counterexample :
    Except.map visibleLen
        (print_output (lbr :: rbr :: List.replicate 15 'a') ['M'] matchColor resetColor
          12) = Except.ok 3 ∧
      Except.map visibleLen
        (print_output (lbr :: rbr :: List.replicate 15 'a') ['M'] matchColor resetColor
          12) ≠ Except.ok 12 := by
  have hfmt := pyFormat_split (matchColor ++ ['M'] ++ resetColor) []
    (List.replicate 15 'a') rfl (by decide)
  simp only [List.nil_append] at hfmt
  have hidx := pyIndexBrace_split [] (List.replicate 15 'a') rfl
  simp only [List.nil_append] at hidx
  have hmain : Except.map visibleLen
      (print_output (lbr :: rbr :: List.replicate 15 'a') ['M'] matchColor resetColor
        12) = Except.ok 3 := by
    rw [print_output, hfmt]
    dsimp only
    rw [if_pos (by decide)]
    rw [hidx]
    dsimp only
    rw [if_pos (by decide)]
    rw [show pySliceTo ((matchColor ++ ['M'] ++ resetColor) ++ List.replicate 15 'a')
        (((12 : Nat) : Int) - 3 - (matchColor.length : Int) - (resetColor.length : Int)) =
        [] from by decide]
    dsimp only [Except.map]
    rw [show resetColor ++ (([] : Str) ++ ['.', '.', '.']) ++ resetColor =
        resetColor ++ (['.', '.', '.'] ++ resetColor) from by simp]
    rw [visibleLen_colorseq resetColor (['.', '.', '.'] ++ resetColor)
      ⟨['[', '0'], rfl, by decide⟩]
    rw [visibleLen_append_escFree ['.', '.', '.'] resetColor (by decide)]
    rw [visibleLen_reset]
    rfl
  exact ⟨hmain, by rw [hmain]; simp⟩
